import Mathlib

/-!
# Marker keyboard navigation — verification

Shallow embedding of the marker Tab/Enter navigation controller
(`index.js`).  The JS module keeps a single mutable object
`google.maps.markerNavigation` holding the marker list, the cursor
(`currentMarker`), the captured per-marker icons (`markerIcons`), the
configured selected/deselected icons and the reference to the last
attached Enter-key listener (`previousMarkerListener`).

The embedding is stateful-by-value: each JS function becomes a Lean
function from the state to the new state, together with the list of
externally observable effects it performs (icon writes, map pans,
listener attach/detach, synthetic clicks) and its return value.  The
set of listeners currently attached to the DOM `document` is modelled
explicitly in the state (`liveListeners`), since several properties are
about live subscriptions; JS `undefined` is modelled by `Option`.
-/

namespace MarkerNav

/-- A map marker: its current icon (a string path, `none` standing for
the JS `undefined`) and its position (`getPosition`). -/
structure Marker where
  icon : Option String
  pos : Int
deriving DecidableEq, Repr

/-- The navigation state: mirrors the fields of
`google.maps.markerNavigation` plus the set of keydown listeners
currently attached to `document` (`liveListeners`: pairs of a listener
id and the index of the marker the listener's closure captured) and a
fresh-id counter for allocating listener handles. -/
structure NavState where
  markers : List Marker
  currentMarker : Int
  markerIcons : List (Option String)
  selectedMarkerIcon : Option String
  deselectedMarkerIcon : Option String
  previousMarkerListener : Option Nat
  liveListeners : List (Nat × Int)
  nextListenerId : Nat
deriving DecidableEq, Repr

/-- Externally observable effects performed on the host widget. -/
inductive Act where
  | setIcon (idx : Int) (icon : Option String)
  | panTo (p : Int)
  | addListener (id : Nat)
  | removeListener (id : Nat)
  | triggerClick (idx : Int)
deriving DecidableEq, Repr

/-- JS array indexing `xs[i]` with an `Int` index: out of range (either
side) yields `undefined`, i.e. `none`. -/
def jsIndex {α : Type} (xs : List α) (i : Int) : Option α :=
  if 0 ≤ i then xs[i.toNat]? else none

/-- `markerIcons[i]` as used by the code: the entries themselves may be
`undefined`, and an out-of-range access is also `undefined`, so the two
collapse. -/
def jsIconAt (xs : List (Option String)) (i : Int) : Option String :=
  match jsIndex xs i with
  | some ic => ic
  | none => none

/-- `__addClickMarkerViaEnterKey(mapDiv, marker)`: if the marker is
absent, return `undefined`; otherwise attach a fresh keydown listener
to `document` (its closure captures the marker) and return its handle.
The marker is designated by its index in the current list. -/
def addClickMarkerViaEnterKey (s : NavState) (midx : Int) :
    NavState × List Act × Option Nat :=
  match jsIndex s.markers midx with
  | none => (s, [], none)
  | some _ =>
    let id := s.nextListenerId
    ({ s with nextListenerId := id + 1,
              liveListeners := s.liveListeners ++ [(id, midx)] },
     [Act.addListener id], some id)

/-- `__selectMarker(map, mapDiv, marker)`: no-op on an absent marker;
otherwise set the marker's icon to `selectedMarkerIcon`, pan the map to
the marker's position, and attach the Enter listener, returning its
handle. -/
def selectMarker (s : NavState) (midx : Int) :
    NavState × List Act × Option Nat :=
  match jsIndex s.markers midx with
  | none => (s, [], none)
  | some m =>
    let s1 := { s with
      markers := s.markers.set midx.toNat { m with icon := s.selectedMarkerIcon } }
    let r := addClickMarkerViaEnterKey s1 midx
    (r.1, Act.setIcon midx s.selectedMarkerIcon :: Act.panTo m.pos :: r.2.1, r.2.2)

/-- `__deselectMarker(enterListener, marker)`: returns immediately on an
absent marker.  Otherwise restores the marker's icon — the entry of
`markerIcons` at the (global) `currentMarker` index when `markerIcons`
is non-empty, the shared `deselectedMarkerIcon` otherwise — and then
removes the given listener if one was passed. -/
def deselectMarker (s : NavState) (enterListener : Option Nat) (midx : Int) :
    NavState × List Act :=
  match jsIndex s.markers midx with
  | none => (s, [])
  | some m =>
    let icon := if s.markerIcons ≠ [] then jsIconAt s.markerIcons s.currentMarker
                else s.deselectedMarkerIcon
    let s1 := { s with markers := s.markers.set midx.toNat { m with icon := icon } }
    match enterListener with
    | none => (s1, [Act.setIcon midx icon])
    | some l =>
      ({ s1 with liveListeners := s1.liveListeners.filter (fun p => p.1 != l) },
       [Act.setIcon midx icon, Act.removeListener l])

/-- `__iterateMarkers(listener, map, mapDiv, shift)`: re-reads the
current marker list from the global state; forces the cursor to `0`
when the list is empty; selects the marker at `currentMarker + mod`,
then deselects the marker at the (still uncommitted) `currentMarker`,
and only then commits `currentMarker += mod`.  Returns the newly
attached listener handle. -/
def iterateMarkers (s : NavState) (listener : Option Nat) (shift : Bool) :
    NavState × List Act × Option Nat :=
  let s0 := if s.markers.length = 0 then { s with currentMarker := 0 } else s
  let mod : Int := if shift then -1 else 1
  let r1 := selectMarker s0 (s0.currentMarker + mod)
  let r2 := deselectMarker r1.1 listener r1.1.currentMarker
  ({ r2.1 with currentMarker := r2.1.currentMarker + mod }, r1.2.1 ++ r2.2, r1.2.2)

/-- The world: the navigation state plus whether `document.activeElement`
is the internal map div. -/
structure World where
  nav : NavState
  focused : Bool
deriving DecidableEq, Repr

/-- The keydown closure installed by `__addTabNavToMapMarkers(map,
mapDiv)`.  `closureMarkers` is the marker list captured by
`const markers = google.maps.markerNavigation.markers || []` at install
time.  Returns the new world, the effects performed, and whether
`e.preventDefault()` was called (the event was suppressed). -/
def tabNavKeydownHandler (closureMarkers : List Marker) (w : World)
    (key : String) (shiftKey : Bool) : World × List Act × Bool :=
  if key = "Tab" ∧ w.focused = false then
    if shiftKey = false then
      ({ w with nav := { w.nav with currentMarker := -1 } }, [], false)
    else
      ({ w with nav := { w.nav with currentMarker := (closureMarkers.length : Int) } },
       [], false)
  else if w.focused = true ∧ key = "Tab" then
    let r := iterateMarkers w.nav w.nav.previousMarkerListener shiftKey
    let s1 := { r.1 with previousMarkerListener := r.2.2 }
    if (closureMarkers.length : Int) ≤ s1.currentMarker ∧ shiftKey = false then
      ({ w with nav := { s1 with currentMarker := (closureMarkers.length : Int) } },
       r.2.1, false)
    else if s1.currentMarker ≤ (-1 : Int) ∧ shiftKey = true then
      ({ w with nav := { s1 with currentMarker := -1 } }, r.2.1, false)
    else
      ({ w with nav := s1 }, r.2.1, true)
  else (w, [], false)

/-- One attached Enter listener reacting to a keydown: it synthesizes a
click on its captured marker exactly when the key is Enter and the map
div is the active element. -/
def fireListener (focused : Bool) (key : String) (p : Nat × Int) : List Act :=
  if focused = true ∧ key = "Enter" then [Act.triggerClick p.2] else []

/-- Dispatch of one `keydown` event on `document`: the tab-navigation
handler (registered first) runs, then every Enter listener that was
live before the dispatch and was not removed during it fires. -/
def dispatchKeyDown (closureMarkers : List Marker) (w : World)
    (key : String) (shiftKey : Bool) : World × List Act × Bool :=
  let r := tabNavKeydownHandler closureMarkers w key shiftKey
  let fired := w.nav.liveListeners.filter (fun p => r.1.nav.liveListeners.contains p)
  (r.1, r.2.1 ++ fired.flatMap (fireListener w.focused key), r.2.2)

/-- The `focusout` handler installed by `keyNavInit`: deselect the
marker at the current cursor (passing the stored listener reference for
detachment) and reset the cursor to `-1`.  The stored
`previousMarkerListener` reference itself is not cleared. -/
def focusOutHandler (s : NavState) : NavState × List Act :=
  let r := deselectMarker s s.previousMarkerListener s.currentMarker
  ({ r.1 with currentMarker := -1 }, r.2)

/-- An externally driven event: a keydown (with key identity and shift
modifier) or a change of which element holds focus.  Moving focus off
the map div fires the `focusout` handler, as the browser does. -/
inductive Ev where
  | keyDown (key : String) (shiftKey : Bool)
  | setFocus (b : Bool)
deriving DecidableEq, Repr

/-- One event step of the world. -/
def stepEv (closureMarkers : List Marker) (w : World) (e : Ev) :
    World × List Act × Bool :=
  match e with
  | Ev.keyDown k sh => dispatchKeyDown closureMarkers w k sh
  | Ev.setFocus b =>
    if w.focused = true ∧ b = false then
      let r := focusOutHandler w.nav
      ({ nav := r.1, focused := b }, r.2, false)
    else ({ w with focused := b }, [], false)

/-- State part of one event step. -/
def stepEvW (cm : List Marker) (w : World) (e : Ev) : World := (stepEv cm w e).1

/-- Run a list of events. -/
def runEvs (cm : List Marker) (w : World) (evs : List Ev) : World :=
  evs.foldl (stepEvW cm) w

/-- `__getMarkerIconsFromMarkers(markers)`. -/
def getMarkerIconsFromMarkers (markers : List Marker) : List (Option String) :=
  markers.map Marker.icon

/-- `keyNavInit(mapDiv, map, markers, icons, distinctMarkerIconFlag)`:
builds the navigation state (cursor `-1`, empty `markerIcons`), stores
the configured icons, and captures the per-marker icons when the
distinct-icon flag is set.  The keydown closure installed by
`__addTabNavToMapMarkers` captures the `markers` list as it is at this
moment. -/
def keyNavInit (markers : List Marker) (iconsSel iconsDesel : Option String)
    (distinctMarkerIconFlag : Bool) : NavState :=
  let s : NavState :=
    { markers := markers, currentMarker := -1, markerIcons := [],
      selectedMarkerIcon := iconsSel, deselectedMarkerIcon := iconsDesel,
      previousMarkerListener := none, liveListeners := [], nextListenerId := 0 }
  if distinctMarkerIconFlag then
    { s with markerIcons := getMarkerIconsFromMarkers markers }
  else s

/-- The world right after `keyNavInit`, focus outside the map div. -/
def initWorld (markers : List Marker) (iconsSel iconsDesel : Option String)
    (flag : Bool) : World :=
  { nav := keyNavInit markers iconsSel iconsDesel flag, focused := false }

/-- `updateMarkerCount(markers)`: replace the marker list, recompute
`markerIcons` from the new list (unconditionally), clear the stored
listener reference.  The cursor and the live listeners are untouched. -/
def updateMarkerCount (s : NavState) (markers : List Marker) : NavState :=
  { s with markers := markers,
           markerIcons := getMarkerIconsFromMarkers markers,
           previousMarkerListener := none }

/-- Marker `i` of the current list is "selected": its icon equals the
configured selected icon. -/
def markerSelected (s : NavState) (i : Nat) : Bool :=
  match s.markers[i]? with
  | some m => decide (m.icon = s.selectedMarkerIcon)
  | none => false

/-- Number of selected markers in the current list. -/
def selectedCount (s : NavState) : Nat :=
  ((List.range s.markers.length).filter (markerSelected s)).length

/-- The cursor designates a real marker (not a sentinel). -/
def inRange (cur : Int) (len : Nat) : Prop := 0 ≤ cur ∧ cur < (len : Int)

instance (cur : Int) (len : Nat) : Decidable (inRange cur len) := by
  unfold inRange; infer_instance

/-- Listener ids still attached after performing a list of effects,
starting from the given attached ids. -/
def liveAfter (acts : List Act) (ids : List Nat) : List Nat :=
  List.foldl (fun acc a =>
    match a with
    | Act.addListener id => acc ++ [id]
    | Act.removeListener id => acc.filter (fun x => x != id)
    | _ => acc) ids acts

/-- The old listener is detached no later than the new one is attached
in the given effect list ("detached before or while attached"). -/
def detachNotAfterAttach (acts : List Act) (oldId newId : Nat) : Prop :=
  ∃ i, i < acts.length ∧ ∃ j, j < acts.length ∧ i ≤ j ∧
    acts[i]? = some (Act.removeListener oldId) ∧
    acts[j]? = some (Act.addListener newId)

/-- Throughout the effect list (at every intermediate point), at most
one listener is attached. -/
def atMostOneLiveThroughout (acts : List Act) (ids : List Nat) : Prop :=
  ∀ k, k ≤ acts.length → (liveAfter (acts.take k) ids).length ≤ 1

instance (acts : List Act) (o n : Nat) : Decidable (detachNotAfterAttach acts o n) := by
  unfold detachNotAfterAttach
  infer_instance

instance (acts : List Act) (ids : List Nat) :
    Decidable (atMostOneLiveThroughout acts ids) := by
  unfold atMostOneLiveThroughout
  infer_instance

/-- The icon `__deselectMarker` restores on a present marker: the
`markerIcons` entry at the global `currentMarker` when `markerIcons` is
non-empty, the shared deselected icon otherwise. -/
def restoreIcon (s : NavState) : Option String :=
  if s.markerIcons ≠ [] then jsIconAt s.markerIcons s.currentMarker
  else s.deselectedMarkerIcon

/-- Effect of passing an optional listener handle to
`__deselectMarker` on the set of attached listeners. -/
def dropListener (live : List (Nat × Int)) (l : Option Nat) : List (Nat × Int) :=
  match l with
  | none => live
  | some x => live.filter (fun p => p.1 != x)

/-- The synthetic click activations contained in an effect list. -/
def clickActs (acts : List Act) : List Act :=
  acts.filter (fun a => match a with
    | Act.triggerClick _ => true
    | _ => false)

/-- A small concrete marker list used to evaluate the theorems on
closed inputs. -/
def msA : List Marker := [⟨some "a", 10⟩, ⟨some "b", 20⟩, ⟨some "c", 30⟩]

/-- World after initializing with `msA`, distinct-icon mode on. -/
def wInitA : World := initWorld msA (some "s") (some "d") true

/-- Arm for forward entry, focus the map div, Tab once: selects marker
0. -/
def evsEnterA : List Ev :=
  [Ev.keyDown "Tab" false, Ev.setFocus true, Ev.keyDown "Tab" false]

/-- The world with marker 0 selected. -/
def wSelA : World := runEvs msA wInitA evsEnterA

/-- The world armed for forward entry with the map div focused. -/
def wArmA : World := runEvs msA wInitA [Ev.keyDown "Tab" false, Ev.setFocus true]

/-- Navigation state for an empty marker list (cursor at `-1`). -/
def sEmptyA : NavState := keyNavInit [] (some "s") (some "d") false

/-- The world with marker 2 (the last of `msA`) selected. -/
def wSel3A : World :=
  runEvs msA wInitA (evsEnterA ++ [Ev.keyDown "Tab" false, Ev.keyDown "Tab" false])

/-- A replacement marker list with a single marker. -/
def msB : List Marker := [⟨some "z", 9⟩]

/-- The state invariant tying icons, cursor, focus and listeners
together, relative to the list captured by the keydown closure. -/
structure NavInv (cm : List Marker) (w : World) : Prop where
  lenEq : cm.length = w.nav.markers.length
  cursorLB : -1 ≤ w.nav.currentMarker
  cursorUB : w.nav.currentMarker ≤ (w.nav.markers.length : Int)
  selIff : ∀ (i : Nat) (m : Marker), w.nav.markers[i]? = some m →
      (m.icon = w.nav.selectedMarkerIcon ↔ w.nav.currentMarker = (i : Int))
  focusSentinel : w.focused = false →
      w.nav.currentMarker = -1 ∨ w.nav.currentMarker = (w.nav.markers.length : Int)
  iconsLen : w.nav.markerIcons = [] ∨ w.nav.markerIcons.length = w.nav.markers.length
  iconsNotSel : ∀ ic ∈ w.nav.markerIcons, ic ≠ w.nav.selectedMarkerIcon
  deselNotSel : w.nav.deselectedMarkerIcon ≠ w.nav.selectedMarkerIcon
  liveIn : inRange w.nav.currentMarker w.nav.markers.length →
      ∃ lid, w.nav.previousMarkerListener = some lid ∧
        w.nav.liveListeners = [(lid, w.nav.currentMarker)]
  liveOut : ¬ inRange w.nav.currentMarker w.nav.markers.length →
      w.nav.liveListeners = []
  freshIds : ∀ p ∈ w.nav.liveListeners, p.1 < w.nav.nextListenerId

/-! ## Indexing lemmas -/

theorem jsIndex_eq_some {α : Type} {xs : List α} {i : Int} {a : α} :
    jsIndex xs i = some a ↔ 0 ≤ i ∧ xs[i.toNat]? = some a := by
  unfold jsIndex
  split <;> simp_all

theorem jsIndex_neg {α : Type} {xs : List α} {i : Int} (h : i < 0) :
    jsIndex xs i = none := by
  unfold jsIndex
  rw [if_neg (by omega)]

theorem jsIndex_ge {α : Type} {xs : List α} {i : Int}
    (h : (xs.length : Int) ≤ i) : jsIndex xs i = none := by
  unfold jsIndex
  split
  · exact List.getElem?_eq_none_iff.mpr (by omega)
  · rfl

theorem jsIndex_present {α : Type} {xs : List α} {i : Int}
    (h0 : 0 ≤ i) (h1 : i < (xs.length : Int)) :
    jsIndex xs i = xs[i.toNat]? ∧ ∃ a, xs[i.toNat]? = some a := by
  constructor
  · unfold jsIndex; rw [if_pos h0]
  · have : i.toNat < xs.length := by omega
    exact ⟨xs[i.toNat], List.getElem?_eq_getElem this⟩

theorem jsIndex_not_inRange {α : Type} {xs : List α} {i : Int}
    (h : ¬ inRange i xs.length) : jsIndex xs i = none := by
  unfold inRange at h
  rcases lt_or_le i 0 with h0 | h0
  · exact jsIndex_neg h0
  · exact jsIndex_ge (by omega)

theorem jsIndex_some_inRange {α : Type} {xs : List α} {i : Int} {a : α}
    (h : jsIndex xs i = some a) : inRange i xs.length := by
  rcases jsIndex_eq_some.mp h with ⟨h0, h1⟩
  obtain ⟨hlt, -⟩ := List.getElem?_eq_some_iff.mp h1
  exact ⟨h0, by omega⟩

theorem jsIndex_set {α : Type} {xs : List α} {i : Int} {a b : α}
    (h : jsIndex xs i = some a) : jsIndex (xs.set i.toNat b) i = some b := by
  rcases jsIndex_eq_some.mp h with ⟨h0, h1⟩
  obtain ⟨hlt, -⟩ := List.getElem?_eq_some_iff.mp h1
  exact jsIndex_eq_some.mpr ⟨h0, List.getElem?_set_self hlt⟩

/-! ## Regime lemmas for the marker operations -/

theorem selectMarker_absent {s : NavState} {midx : Int}
    (h : jsIndex s.markers midx = none) :
    selectMarker s midx = (s, [], none) := by
  unfold selectMarker
  rw [h]

theorem selectMarker_present {s : NavState} {midx : Int} {m : Marker}
    (h : jsIndex s.markers midx = some m) :
    selectMarker s midx =
      ({ s with
          markers := s.markers.set midx.toNat { m with icon := s.selectedMarkerIcon },
          liveListeners := s.liveListeners ++ [(s.nextListenerId, midx)],
          nextListenerId := s.nextListenerId + 1 },
       [Act.setIcon midx s.selectedMarkerIcon, Act.panTo m.pos,
        Act.addListener s.nextListenerId],
       some s.nextListenerId) := by
  unfold selectMarker addClickMarkerViaEnterKey
  rw [h]
  dsimp only
  rw [jsIndex_set h]

theorem deselectMarker_absent {s : NavState} {l : Option Nat} {midx : Int}
    (h : jsIndex s.markers midx = none) :
    deselectMarker s l midx = (s, []) := by
  unfold deselectMarker
  rw [h]

theorem deselectMarker_present_none {s : NavState} {midx : Int} {m : Marker}
    (h : jsIndex s.markers midx = some m) :
    deselectMarker s none midx =
      ({ s with markers := s.markers.set midx.toNat { m with icon := restoreIcon s } },
       [Act.setIcon midx (restoreIcon s)]) := by
  unfold deselectMarker restoreIcon
  rw [h]

theorem deselectMarker_present_some {s : NavState} {midx : Int} {m : Marker}
    {l : Nat} (h : jsIndex s.markers midx = some m) :
    deselectMarker s (some l) midx =
      ({ s with markers := s.markers.set midx.toNat { m with icon := restoreIcon s },
                liveListeners := s.liveListeners.filter (fun p => p.1 != l) },
       [Act.setIcon midx (restoreIcon s), Act.removeListener l]) := by
  unfold deselectMarker restoreIcon
  rw [h]

theorem jsIndex_eq_none {α : Type} {xs : List α} {i : Int} :
    jsIndex xs i = none ↔ i < 0 ∨ (xs.length : Int) ≤ i := by
  unfold jsIndex
  split
  · rw [List.getElem?_eq_none_iff]
    omega
  · simp; omega

theorem jsIndex_set_ne {α : Type} {xs : List α} {i j : Int} {b : α}
    (hi : 0 ≤ i) (hij : i ≠ j) :
    jsIndex (xs.set i.toNat b) j = jsIndex xs j := by
  unfold jsIndex
  split
  · exact List.getElem?_set_ne (by omega)
  · rfl

theorem jsIndex_set_none {α : Type} {xs : List α} {i : Int} {n : Nat} {b : α}
    (h : jsIndex xs i = none) : jsIndex (xs.set n b) i = none := by
  rw [jsIndex_eq_none] at h ⊢
  simpa using h

/-- No operation of the step changes the cursor before the final
commit: the committed cursor is always the (possibly forced) cursor
plus the direction. -/
theorem iterateMarkers_cursor (s : NavState) (l : Option Nat) (sh : Bool) :
    (iterateMarkers s l sh).1.currentMarker =
      (if s.markers.length = 0 then 0 else s.currentMarker) +
        (if sh then -1 else 1) := by
  simp only [iterateMarkers, selectMarker, deselectMarker, addClickMarkerViaEnterKey]
  split <;> (repeat' split) <;> rfl

/-- The step never touches the stored listener reference (the caller
does). -/
theorem iterateMarkers_prev (s : NavState) (l : Option Nat) (sh : Bool) :
    (iterateMarkers s l sh).1.previousMarkerListener = s.previousMarkerListener := by
  simp only [iterateMarkers, selectMarker, deselectMarker, addClickMarkerViaEnterKey]
  split <;> (repeat' split) <;> rfl

/-- The step preserves the marker count. -/
theorem iterateMarkers_length (s : NavState) (l : Option Nat) (sh : Bool) :
    (iterateMarkers s l sh).1.markers.length = s.markers.length := by
  simp only [iterateMarkers, selectMarker, deselectMarker, addClickMarkerViaEnterKey]
  split <;> (repeat' split) <;> simp [List.length_set]

/-- Step on an empty marker list: the cursor is forced to `0`, both the
selection and the deselection are no-ops, and the committed cursor is
the direction itself. -/
theorem iterateMarkers_empty {s : NavState} (h : s.markers = [])
    (l : Option Nat) (sh : Bool) :
    iterateMarkers s l sh =
      ({ s with currentMarker := if sh then -1 else 1 }, [], none) := by
  have h1 : ∀ i : Int, jsIndex ([] : List Marker) i = none := by
    intro i
    rw [jsIndex_eq_none]
    simp
    omega
  simp only [iterateMarkers, selectMarker, deselectMarker, addClickMarkerViaEnterKey,
    h, List.length_nil, if_pos rfl]
  cases sh <;> simp [h1]

/-- Step with both the candidate and the vacated marker present: the
candidate is selected first (icon, pan, fresh listener), the vacated
marker is deselected next (restored icon, listener removal), and the
candidate index is committed last. -/
theorem iterateMarkers_step_full {s : NavState} {sh : Bool} {mc md : Marker}
    (hne : ¬ s.markers.length = 0)
    (hsel : jsIndex s.markers (s.currentMarker + (if sh then -1 else 1)) = some mc)
    (hdes : jsIndex s.markers s.currentMarker = some md) (l : Option Nat) :
    iterateMarkers s l sh =
      ({ s with
          markers := (s.markers.set (s.currentMarker + (if sh then -1 else 1)).toNat
              { mc with icon := s.selectedMarkerIcon }).set s.currentMarker.toNat
              { md with icon := restoreIcon s },
          currentMarker := s.currentMarker + (if sh then -1 else 1),
          liveListeners := dropListener
            (s.liveListeners ++
              [(s.nextListenerId, s.currentMarker + (if sh then -1 else 1))]) l,
          nextListenerId := s.nextListenerId + 1 },
       Act.setIcon (s.currentMarker + (if sh then -1 else 1)) s.selectedMarkerIcon ::
         Act.panTo mc.pos :: Act.addListener s.nextListenerId ::
         Act.setIcon s.currentMarker (restoreIcon s) :: l.toList.map Act.removeListener,
       some s.nextListenerId) := by
  have h0 : 0 ≤ s.currentMarker + (if sh then -1 else 1) := (jsIndex_some_inRange hsel).1
  have hcc : s.currentMarker + (if sh then -1 else 1) ≠ s.currentMarker := by
    cases sh <;> simp
  simp only [iterateMarkers, selectMarker, deselectMarker, addClickMarkerViaEnterKey,
    if_neg hne, hsel, jsIndex_set hsel, jsIndex_set_ne h0 hcc, hdes, restoreIcon]
  cases l <;> simp [dropListener]

/-- Step entering the marker set: candidate present, vacated index out
of range (sentinel), so nothing is deselected and in particular the
passed listener is not removed. -/
theorem iterateMarkers_enter {s : NavState} {sh : Bool} {mc : Marker}
    (hne : ¬ s.markers.length = 0)
    (hsel : jsIndex s.markers (s.currentMarker + (if sh then -1 else 1)) = some mc)
    (hdes : jsIndex s.markers s.currentMarker = none) (l : Option Nat) :
    iterateMarkers s l sh =
      ({ s with
          markers := s.markers.set (s.currentMarker + (if sh then -1 else 1)).toNat
              { mc with icon := s.selectedMarkerIcon },
          currentMarker := s.currentMarker + (if sh then -1 else 1),
          liveListeners := s.liveListeners ++
            [(s.nextListenerId, s.currentMarker + (if sh then -1 else 1))],
          nextListenerId := s.nextListenerId + 1 },
       [Act.setIcon (s.currentMarker + (if sh then -1 else 1)) s.selectedMarkerIcon,
        Act.panTo mc.pos, Act.addListener s.nextListenerId],
       some s.nextListenerId) := by
  simp only [iterateMarkers, selectMarker, deselectMarker, addClickMarkerViaEnterKey,
    if_neg hne, hsel, jsIndex_set hsel, jsIndex_set_none hdes]
  simp

/-- Step leaving the marker set: candidate out of range (no selection,
no new listener), the vacated marker deselected. -/
theorem iterateMarkers_exit {s : NavState} {sh : Bool} {md : Marker}
    (hne : ¬ s.markers.length = 0)
    (hsel : jsIndex s.markers (s.currentMarker + (if sh then -1 else 1)) = none)
    (hdes : jsIndex s.markers s.currentMarker = some md) (l : Option Nat) :
    iterateMarkers s l sh =
      ({ s with
          markers := s.markers.set s.currentMarker.toNat
              { md with icon := restoreIcon s },
          currentMarker := s.currentMarker + (if sh then -1 else 1),
          liveListeners := dropListener s.liveListeners l },
       Act.setIcon s.currentMarker (restoreIcon s) :: l.toList.map Act.removeListener,
       none) := by
  simp only [iterateMarkers, selectMarker, deselectMarker, addClickMarkerViaEnterKey,
    if_neg hne, hsel, hdes, restoreIcon]
  cases l <;> simp [dropListener]

/-- Step with both indices out of range: only the cursor commit
happens. -/
theorem iterateMarkers_noop {s : NavState} {sh : Bool}
    (hne : ¬ s.markers.length = 0)
    (hsel : jsIndex s.markers (s.currentMarker + (if sh then -1 else 1)) = none)
    (hdes : jsIndex s.markers s.currentMarker = none) (l : Option Nat) :
    iterateMarkers s l sh =
      ({ s with currentMarker := s.currentMarker + (if sh then -1 else 1) },
       [], none) := by
  simp only [iterateMarkers, selectMarker, deselectMarker, addClickMarkerViaEnterKey,
    if_neg hne, hsel, hdes]
  simp

/-! ## Invariant machinery -/

theorem jsIconAt_mem {xs : List (Option String)} {i : Int}
    (h0 : 0 ≤ i) (h1 : i < (xs.length : Int)) : jsIconAt xs i ∈ xs := by
  obtain ⟨hj, a, ha⟩ := jsIndex_present h0 h1
  unfold jsIconAt
  rw [hj, ha]
  exact List.getElem?_mem ha

/-- Under the invariant's icon conditions, the restored icon is never
the selected icon. -/
theorem restoreIcon_ne {s : NavState}
    (hil : s.markerIcons = [] ∨ s.markerIcons.length = s.markers.length)
    (hins : ∀ ic ∈ s.markerIcons, ic ≠ s.selectedMarkerIcon)
    (hdns : s.deselectedMarkerIcon ≠ s.selectedMarkerIcon)
    (hin : inRange s.currentMarker s.markers.length) :
    restoreIcon s ≠ s.selectedMarkerIcon := by
  unfold restoreIcon
  split
  · rename_i hni
    rcases hil with h0 | h0
    · exact absurd h0 hni
    · exact hins _ (jsIconAt_mem hin.1 (by rw [h0]; exact hin.2))
  · exact hdns

/-- The world after a keydown dispatch is the world after the
navigation handler (the Enter listeners only emit effects). -/
theorem dispatchKeyDown_state (cm : List Marker) (w : World) (k : String)
    (sh : Bool) :
    (dispatchKeyDown cm w k sh).1 = (tabNavKeydownHandler cm w k sh).1 := rfl

/-- A keydown whose key is not Tab leaves the world unchanged. -/
theorem tabNavKeydownHandler_other (cm : List Marker) (w : World) {k : String}
    (hk : ¬ k = "Tab") (sh : Bool) :
    tabNavKeydownHandler cm w k sh = (w, [], false) := by
  unfold tabNavKeydownHandler
  rw [if_neg (by simp [hk]), if_neg (by simp [hk])]

/-- Losing focus preserves the invariant (and any focus change does). -/
theorem navInv_setFocus {cm : List Marker} {w : World} (b : Bool)
    (h : NavInv cm w) : NavInv cm (stepEvW cm w (Ev.setFocus b)) := by
  obtain ⟨hlen, hlb, hub, hsel, hfs, hil, hins, hdns, hliveIn, hliveOut, hfresh⟩ := h
  by_cases hfb : w.focused = true ∧ b = false
  · by_cases hin : inRange w.nav.currentMarker w.nav.markers.length
    · obtain ⟨lid, hprev, hlive⟩ := hliveIn hin
      obtain ⟨hje, md, hmd⟩ := jsIndex_present hin.1 hin.2
      have hpres : jsIndex w.nav.markers w.nav.currentMarker = some md := by
        rw [hje]; exact hmd
      have hrne := restoreIcon_ne hil hins hdns hin
      have hc0 : 0 ≤ w.nav.currentMarker := hin.1
      have hclen : w.nav.currentMarker < (w.nav.markers.length : Int) := hin.2
      have hstep : stepEvW cm w (Ev.setFocus b) =
          { nav := { w.nav with
              markers := w.nav.markers.set w.nav.currentMarker.toNat
                { md with icon := restoreIcon w.nav },
              currentMarker := -1,
              liveListeners := [] },
            focused := b } := by
        simp only [stepEvW, stepEv, if_pos hfb, focusOutHandler, hprev]
        rw [deselectMarker_present_some hpres]
        simp [hlive, hprev]
      rw [hstep]
      refine ⟨?_, ?_, ?_, ?_, ?_, ?_, ?_, ?_, ?_, ?_, ?_⟩
      · simpa [List.length_set] using hlen
      · simp
      · simp only [List.length_set]
        omega
      · intro i m him
        simp only [List.length_set] at him ⊢
        by_cases hic : i = w.nav.currentMarker.toNat
        · subst hic
          rw [List.getElem?_set_self (by omega)] at him
          have hm : m = { md with icon := restoreIcon w.nav } :=
            (Option.some_inj.mp him).symm
          subst hm
          refine iff_of_false ?_ (by omega)
          intro hisel
          exact hrne hisel
        · rw [List.getElem?_set_ne (fun hcc => hic hcc.symm)] at him
          refine iff_of_false ?_ (by omega)
          intro hisel
          have := (hsel i m him).mp hisel
          omega
      · intro _
        left; rfl
      · rcases hil with h0 | h0
        · exact Or.inl h0
        · right
          simpa [List.length_set] using h0
      · exact hins
      · exact hdns
      · intro hcontra
        exact absurd hcontra.1 (by norm_num)
      · intro _
        rfl
      · intro p hp
        simp at hp
    · have habs : jsIndex w.nav.markers w.nav.currentMarker = none :=
        jsIndex_not_inRange hin
      have hstep : stepEvW cm w (Ev.setFocus b) =
          { nav := { w.nav with currentMarker := -1 }, focused := b } := by
        simp only [stepEvW, stepEv, if_pos hfb, focusOutHandler]
        rw [deselectMarker_absent habs]
      rw [hstep]
      refine ⟨hlen, ?_, ?_, ?_, ?_, hil, hins, hdns, ?_, ?_, ?_⟩
      · simp
      · dsimp only
        omega
      · intro i m him
        dsimp only at him ⊢
        refine iff_of_false ?_ (by omega)
        intro hisel
        have hi := (hsel i m him).mp hisel
        obtain ⟨hlt, -⟩ := List.getElem?_eq_some_iff.mp him
        exact hin ⟨by omega, by omega⟩
      · intro _
        left; rfl
      · intro hcontra
        exact absurd hcontra.1 (by norm_num)
      · intro _
        exact hliveOut hin
      · intro p hp
        exact hfresh p hp
  · have hstep : stepEvW cm w (Ev.setFocus b) = { w with focused := b } := by
      simp only [stepEvW, stepEv, if_neg hfb]
    rw [hstep]
    refine ⟨hlen, hlb, hub, hsel, ?_, hil, hins, hdns, hliveIn, hliveOut, hfresh⟩
    intro hb
    dsimp only at hb
    have hwf : w.focused = false := by
      cases hw : w.focused
      · rfl
      · exact absurd ⟨hw, hb⟩ hfb
    exact hfs hwf

/-- Tab inside the container, stepping from one real marker to
another, preserves the invariant. -/
theorem navInv_tab_full {cm : List Marker} {w : World} {sh : Bool}
    (h : NavInv cm w) (hf : w.focused = true)
    (hcin : inRange w.nav.currentMarker w.nav.markers.length)
    (hcand : inRange (w.nav.currentMarker + (if sh then -1 else 1))
      w.nav.markers.length) :
    NavInv cm (stepEvW cm w (Ev.keyDown "Tab" sh)) := by
  obtain ⟨hlen, hlb, hub, hsel, hfs, hil, hins, hdns, hliveIn, hliveOut, hfresh⟩ := h
  obtain ⟨lid, hprev, hlive⟩ := hliveIn hcin
  have hc0 := hcin.1
  have hclt := hcin.2
  have hd0 := hcand.1
  have hdlt := hcand.2
  have hld : lid < w.nav.nextListenerId := by
    refine hfresh (lid, w.nav.currentMarker) ?_
    rw [hlive]
    exact List.mem_singleton_self _
  have hbne : (w.nav.nextListenerId != lid) = true := by
    simpa using hld.ne'
  have hlen0 : ¬ w.nav.markers.length = 0 := by omega
  obtain ⟨hjc, mc, hmc⟩ := jsIndex_present hcand.1 hcand.2
  have hselF : jsIndex w.nav.markers
      (w.nav.currentMarker + (if sh then -1 else 1)) = some mc := by
    rw [hjc]; exact hmc
  obtain ⟨hjd, md, hmd⟩ := jsIndex_present hcin.1 hcin.2
  have hdesF : jsIndex w.nav.markers w.nav.currentMarker = some md := by
    rw [hjd]; exact hmd
  have hrne := restoreIcon_ne hil hins hdns hcin
  have hstep : stepEvW cm w (Ev.keyDown "Tab" sh) =
      { w with nav := { w.nav with
          markers := (w.nav.markers.set
              (w.nav.currentMarker + (if sh then -1 else 1)).toNat
              { mc with icon := w.nav.selectedMarkerIcon }).set
              w.nav.currentMarker.toNat { md with icon := restoreIcon w.nav },
          currentMarker := w.nav.currentMarker + (if sh then -1 else 1),
          previousMarkerListener := some w.nav.nextListenerId,
          liveListeners := [(w.nav.nextListenerId,
            w.nav.currentMarker + (if sh then -1 else 1))],
          nextListenerId := w.nav.nextListenerId + 1 } } := by
    simp only [stepEvW, stepEv, dispatchKeyDown_state]
    unfold tabNavKeydownHandler
    rw [if_neg (by simp [hf]), if_pos ⟨hf, rfl⟩, hprev,
      iterateMarkers_step_full hlen0 hselF hdesF (some lid)]
    rw [if_neg (by
      rintro ⟨hh, -⟩
      simp only at hh
      have := hcand.2
      omega),
      if_neg (by
      rintro ⟨hh, -⟩
      simp only at hh
      have := hcand.1
      omega)]
    simp [hlive, dropListener, List.filter, hbne]
  rw [hstep]
  refine ⟨?_, ?_, ?_, ?_, ?_, ?_, ?_, ?_, ?_, ?_, ?_⟩
  · simpa [List.length_set] using hlen
  · simp only
    omega
  · simp only [List.length_set]
    omega
  · intro i m him
    simp only [List.length_set] at him ⊢
    by_cases hic : i = w.nav.currentMarker.toNat
    · subst hic
      rw [List.getElem?_set_self (by simp only [List.length_set]; omega)] at him
      have hm : m = { md with icon := restoreIcon w.nav } :=
        (Option.some_inj.mp him).symm
      subst hm
      refine iff_of_false (fun hisel => hrne hisel) ?_
      intro hh
      omega
    · rw [List.getElem?_set_ne (fun hcc => hic hcc.symm)] at him
      by_cases hicand : i = (w.nav.currentMarker + (if sh then -1 else 1)).toNat
      · subst hicand
        rw [List.getElem?_set_self (by omega)] at him
        have hm : m = { mc with icon := w.nav.selectedMarkerIcon } :=
          (Option.some_inj.mp him).symm
        subst hm
        exact ⟨fun _ => by omega, fun _ => rfl⟩
      · rw [List.getElem?_set_ne (fun hcc => hicand hcc.symm)] at him
        refine iff_of_false ?_ ?_
        · intro hisel
          have := (hsel i m him).mp hisel
          omega
        · intro hh
          omega
  · intro hfo
    simp [hf] at hfo
  · rcases hil with h0 | h0
    · exact Or.inl h0
    · right
      simpa [List.length_set] using h0
  · exact hins
  · exact hdns
  · intro _
    exact ⟨w.nav.nextListenerId, rfl, rfl⟩
  · intro hcontra
    simp only [List.length_set] at hcontra
    exact absurd hcand hcontra
  · intro p hp
    simp only [List.mem_singleton] at hp
    subst hp
    simp

/-- Tab inside the container entering the marker set (cursor at a
sentinel, candidate a real marker) preserves the invariant. -/
theorem navInv_tab_enter {cm : List Marker} {w : World} {sh : Bool}
    (h : NavInv cm w) (hf : w.focused = true)
    (hcout : ¬ inRange w.nav.currentMarker w.nav.markers.length)
    (hcand : inRange (w.nav.currentMarker + (if sh then -1 else 1))
      w.nav.markers.length) :
    NavInv cm (stepEvW cm w (Ev.keyDown "Tab" sh)) := by
  obtain ⟨hlen, hlb, hub, hsel, hfs, hil, hins, hdns, hliveIn, hliveOut, hfresh⟩ := h
  have hd0 := hcand.1
  have hdlt := hcand.2
  have hlive := hliveOut hcout
  have hcsent : w.nav.currentMarker = -1 ∨
      w.nav.currentMarker = (w.nav.markers.length : Int) := by
    unfold inRange at hcout
    omega
  have hlen0 : ¬ w.nav.markers.length = 0 := by omega
  obtain ⟨hjc, mc, hmc⟩ := jsIndex_present hcand.1 hcand.2
  have hselF : jsIndex w.nav.markers
      (w.nav.currentMarker + (if sh then -1 else 1)) = some mc := by
    rw [hjc]; exact hmc
  have hdesN : jsIndex w.nav.markers w.nav.currentMarker = none :=
    jsIndex_not_inRange hcout
  have hstep : stepEvW cm w (Ev.keyDown "Tab" sh) =
      { w with nav := { w.nav with
          markers := w.nav.markers.set
              (w.nav.currentMarker + (if sh then -1 else 1)).toNat
              { mc with icon := w.nav.selectedMarkerIcon },
          currentMarker := w.nav.currentMarker + (if sh then -1 else 1),
          previousMarkerListener := some w.nav.nextListenerId,
          liveListeners := [(w.nav.nextListenerId,
            w.nav.currentMarker + (if sh then -1 else 1))],
          nextListenerId := w.nav.nextListenerId + 1 } } := by
    simp only [stepEvW, stepEv, dispatchKeyDown_state]
    unfold tabNavKeydownHandler
    rw [if_neg (by simp [hf]), if_pos ⟨hf, rfl⟩,
      iterateMarkers_enter hlen0 hselF hdesN w.nav.previousMarkerListener]
    rw [if_neg (by
      rintro ⟨hh, -⟩
      simp only at hh
      omega),
      if_neg (by
      rintro ⟨hh, -⟩
      simp only at hh
      omega)]
    simp [hlive]
  rw [hstep]
  refine ⟨?_, ?_, ?_, ?_, ?_, ?_, ?_, ?_, ?_, ?_, ?_⟩
  · simpa [List.length_set] using hlen
  · simp only
    omega
  · simp only [List.length_set]
    omega
  · intro i m him
    simp only [List.length_set] at him ⊢
    by_cases hicand : i = (w.nav.currentMarker + (if sh then -1 else 1)).toNat
    · subst hicand
      rw [List.getElem?_set_self (by omega)] at him
      have hm : m = { mc with icon := w.nav.selectedMarkerIcon } :=
        (Option.some_inj.mp him).symm
      subst hm
      exact ⟨fun _ => by omega, fun _ => rfl⟩
    · rw [List.getElem?_set_ne (fun hcc => hicand hcc.symm)] at him
      obtain ⟨hilt, -⟩ := List.getElem?_eq_some_iff.mp him
      refine iff_of_false ?_ ?_
      · intro hisel
        have := (hsel i m him).mp hisel
        omega
      · intro hh
        omega
  · intro hfo
    simp [hf] at hfo
  · rcases hil with h0 | h0
    · exact Or.inl h0
    · right
      simpa [List.length_set] using h0
  · exact hins
  · exact hdns
  · intro _
    exact ⟨w.nav.nextListenerId, rfl, rfl⟩
  · intro hcontra
    simp only [List.length_set] at hcontra
    exact absurd hcand hcontra
  · intro p hp
    simp only [List.mem_singleton] at hp
    subst hp
    simp

/-- Tab inside the container leaving the marker set (cursor at a real
marker, candidate out of range) preserves the invariant: the cursor is
clamped to the sentinel on the exit side. -/
theorem navInv_tab_exit {cm : List Marker} {w : World} {sh : Bool}
    (h : NavInv cm w) (hf : w.focused = true)
    (hcin : inRange w.nav.currentMarker w.nav.markers.length)
    (hcand : ¬ inRange (w.nav.currentMarker + (if sh then -1 else 1))
      w.nav.markers.length) :
    NavInv cm (stepEvW cm w (Ev.keyDown "Tab" sh)) := by
  obtain ⟨hlen, hlb, hub, hsel, hfs, hil, hins, hdns, hliveIn, hliveOut, hfresh⟩ := h
  obtain ⟨lid, hprev, hlive⟩ := hliveIn hcin
  have hc0 := hcin.1
  have hclt := hcin.2
  unfold inRange at hcand
  have hlen0 : ¬ w.nav.markers.length = 0 := by omega
  obtain ⟨hjd, md, hmd⟩ := jsIndex_present hcin.1 hcin.2
  have hdesF : jsIndex w.nav.markers w.nav.currentMarker = some md := by
    rw [hjd]; exact hmd
  have hselN : jsIndex w.nav.markers
      (w.nav.currentMarker + (if sh then -1 else 1)) = none :=
    jsIndex_not_inRange hcand
  have hrne := restoreIcon_ne hil hins hdns hcin
  have hstep : stepEvW cm w (Ev.keyDown "Tab" sh) =
      { w with nav := { w.nav with
          markers := w.nav.markers.set w.nav.currentMarker.toNat
            { md with icon := restoreIcon w.nav },
          currentMarker := if sh then -1 else (w.nav.markers.length : Int),
          previousMarkerListener := none,
          liveListeners := [] } } := by
    simp only [stepEvW, stepEv, dispatchKeyDown_state]
    unfold tabNavKeydownHandler
    rw [if_neg (by simp [hf]), if_pos ⟨hf, rfl⟩, hprev,
      iterateMarkers_exit hlen0 hselN hdesF (some lid)]
    cases sh with
    | false =>
      rw [if_pos (by
        refine ⟨?_, rfl⟩
        simp at hcand ⊢
        omega)]
      simp [hlive, dropListener, hlen]
    | true =>
      rw [if_neg (by
        rintro ⟨-, hh⟩
        cases hh),
        if_pos (by
        refine ⟨?_, rfl⟩
        simp at hcand ⊢
        omega)]
      simp [hlive, dropListener]
  rw [hstep]
  refine ⟨?_, ?_, ?_, ?_, ?_, ?_, ?_, ?_, ?_, ?_, ?_⟩
  · simpa [List.length_set] using hlen
  · simp only
    omega
  · simp only [List.length_set]
    omega
  · intro i m him
    simp only [List.length_set] at him ⊢
    by_cases hic : i = w.nav.currentMarker.toNat
    · subst hic
      rw [List.getElem?_set_self (by omega)] at him
      have hm : m = { md with icon := restoreIcon w.nav } :=
        (Option.some_inj.mp him).symm
      subst hm
      refine iff_of_false (fun hisel => hrne hisel) ?_
      intro hh
      cases sh <;> simp at hh <;> omega
    · rw [List.getElem?_set_ne (fun hcc => hic hcc.symm)] at him
      obtain ⟨hilt, -⟩ := List.getElem?_eq_some_iff.mp him
      refine iff_of_false ?_ ?_
      · intro hisel
        have := (hsel i m him).mp hisel
        omega
      · intro hh
        omega
  · intro hfo
    simp [hf] at hfo
  · rcases hil with h0 | h0
    · exact Or.inl h0
    · right
      simpa [List.length_set] using h0
  · exact hins
  · exact hdns
  · intro hcontra
    exfalso
    simp only [List.length_set] at hcontra
    unfold inRange at hcontra
    obtain ⟨ha, hb⟩ := hcontra
    omega
  · intro _
    rfl
  · intro p hp
    simp at hp

/-- Tab inside the container with both the cursor and the candidate out
of range (armed on the far sentinel) preserves the invariant: the
cursor is re-clamped to the exit-side sentinel. -/
theorem navInv_tab_noop {cm : List Marker} {w : World} {sh : Bool}
    (h : NavInv cm w) (hf : w.focused = true)
    (hlen0 : ¬ w.nav.markers.length = 0)
    (hcout : ¬ inRange w.nav.currentMarker w.nav.markers.length)
    (hcand : ¬ inRange (w.nav.currentMarker + (if sh then -1 else 1))
      w.nav.markers.length) :
    NavInv cm (stepEvW cm w (Ev.keyDown "Tab" sh)) := by
  obtain ⟨hlen, hlb, hub, hsel, hfs, hil, hins, hdns, hliveIn, hliveOut, hfresh⟩ := h
  have hlive := hliveOut hcout
  have hcsent : w.nav.currentMarker = -1 ∨
      w.nav.currentMarker = (w.nav.markers.length : Int) := by
    unfold inRange at hcout
    omega
  have hselN : jsIndex w.nav.markers
      (w.nav.currentMarker + (if sh then -1 else 1)) = none :=
    jsIndex_not_inRange hcand
  have hdesN : jsIndex w.nav.markers w.nav.currentMarker = none :=
    jsIndex_not_inRange hcout
  unfold inRange at hcand hcout
  have hstep : stepEvW cm w (Ev.keyDown "Tab" sh) =
      { w with nav := { w.nav with
          currentMarker := if sh then -1 else (w.nav.markers.length : Int),
          previousMarkerListener := none } } := by
    simp only [stepEvW, stepEv, dispatchKeyDown_state]
    unfold tabNavKeydownHandler
    rw [if_neg (by simp [hf]), if_pos ⟨hf, rfl⟩,
      iterateMarkers_noop hlen0 hselN hdesN w.nav.previousMarkerListener]
    cases sh with
    | false =>
      rw [if_pos (by
        refine ⟨?_, rfl⟩
        simp at hcand hcout ⊢
        omega)]
      simp [hlen]
    | true =>
      rw [if_neg (by
        rintro ⟨-, hh⟩
        cases hh),
        if_pos (by
        refine ⟨?_, rfl⟩
        simp at hcand hcout ⊢
        omega)]
      simp
  rw [hstep]
  refine ⟨hlen, ?_, ?_, ?_, ?_, hil, hins, hdns, ?_, ?_, ?_⟩
  · show -1 ≤ (if sh = true then (-1 : Int) else (w.nav.markers.length : Int))
    omega
  · show (if sh = true then (-1 : Int) else (w.nav.markers.length : Int)) ≤
      (w.nav.markers.length : Int)
    omega
  · intro i m him
    have him2 : w.nav.markers[i]? = some m := him
    obtain ⟨hilt, -⟩ := List.getElem?_eq_some_iff.mp him2
    show m.icon = w.nav.selectedMarkerIcon ↔
      (if sh = true then (-1 : Int) else (w.nav.markers.length : Int)) = (i : Int)
    refine iff_of_false ?_ ?_
    · intro hisel
      have := (hsel i m him2).mp hisel
      omega
    · intro hh
      omega
  · intro hfo
    simp [hf] at hfo
  · intro hcontra
    exfalso
    unfold inRange at hcontra
    obtain ⟨ha, hb⟩ := hcontra
    simp only at ha hb
    omega
  · intro _
    exact hlive
  · intro p hp
    exact hfresh p hp

/-- Tab inside the container over an empty marker list preserves the
invariant (the forced cursor is clamped back to a sentinel). -/
theorem navInv_tab_empty {cm : List Marker} {w : World} {sh : Bool}
    (h : NavInv cm w) (hf : w.focused = true)
    (hlen0 : w.nav.markers.length = 0) :
    NavInv cm (stepEvW cm w (Ev.keyDown "Tab" sh)) := by
  obtain ⟨hlen, hlb, hub, hsel, hfs, hil, hins, hdns, hliveIn, hliveOut, hfresh⟩ := h
  have he : w.nav.markers = [] := List.length_eq_zero.mp hlen0
  have hcm0 : cm.length = 0 := by omega
  have hlive : w.nav.liveListeners = [] := by
    refine hliveOut ?_
    unfold inRange
    omega
  have hstep : stepEvW cm w (Ev.keyDown "Tab" sh) =
      { w with nav := { w.nav with
          currentMarker := if sh then -1 else (cm.length : Int),
          previousMarkerListener := none } } := by
    simp only [stepEvW, stepEv, dispatchKeyDown_state]
    unfold tabNavKeydownHandler
    rw [if_neg (by simp [hf]), if_pos ⟨hf, rfl⟩,
      iterateMarkers_empty he w.nav.previousMarkerListener sh]
    cases sh with
    | false =>
      rw [if_pos (by
        refine ⟨?_, rfl⟩
        show (cm.length : Int) ≤ 1
        omega)]
      simp
    | true =>
      rw [if_neg (by
        rintro ⟨-, hh⟩
        cases hh),
        if_pos (by
        refine ⟨?_, rfl⟩
        show (-1 : Int) ≤ -1
        omega)]
      simp
  rw [hstep]
  refine ⟨hlen, ?_, ?_, ?_, ?_, hil, hins, hdns, ?_, ?_, ?_⟩
  · show -1 ≤ (if sh = true then (-1 : Int) else (cm.length : Int))
    omega
  · show (if sh = true then (-1 : Int) else (cm.length : Int)) ≤
      (w.nav.markers.length : Int)
    omega
  · intro i m him
    have him2 : w.nav.markers[i]? = some m := him
    obtain ⟨hilt, -⟩ := List.getElem?_eq_some_iff.mp him2
    omega
  · intro _
    show (if sh = true then (-1 : Int) else (cm.length : Int)) = -1 ∨
      (if sh = true then (-1 : Int) else (cm.length : Int)) = (w.nav.markers.length : Int)
    cases sh with
    | false =>
      right
      simp
      omega
    | true =>
      left
      simp
  · intro hcontra
    exfalso
    unfold inRange at hcontra
    obtain ⟨ha, hb⟩ := hcontra
    simp only at ha hb
    omega
  · intro _
    exact hlive
  · intro p hp
    exact hfresh p hp

/-- Tab while focus is outside the container (arming) preserves the
invariant. -/
theorem navInv_tab_outside {cm : List Marker} {w : World} {sh : Bool}
    (h : NavInv cm w) (hwf : w.focused = false) :
    NavInv cm (stepEvW cm w (Ev.keyDown "Tab" sh)) := by
  obtain ⟨hlen, hlb, hub, hsel, hfs, hil, hins, hdns, hliveIn, hliveOut, hfresh⟩ := h
  have hcsent := hfs hwf
  have hOldOut : ¬ inRange w.nav.currentMarker w.nav.markers.length := by
    unfold inRange
    omega
  have hlive := hliveOut hOldOut
  have hstep : stepEvW cm w (Ev.keyDown "Tab" sh) =
      { w with nav := { w.nav with
          currentMarker := if sh then (cm.length : Int) else -1 } } := by
    simp only [stepEvW, stepEv, dispatchKeyDown_state]
    unfold tabNavKeydownHandler
    rw [if_pos ⟨rfl, hwf⟩]
    cases sh <;> rfl
  rw [hstep]
  refine ⟨hlen, ?_, ?_, ?_, ?_, hil, hins, hdns, ?_, ?_, ?_⟩
  · show -1 ≤ (if sh = true then (cm.length : Int) else -1)
    omega
  · show (if sh = true then (cm.length : Int) else -1) ≤
      (w.nav.markers.length : Int)
    omega
  · intro i m him
    have him2 : w.nav.markers[i]? = some m := him
    obtain ⟨hilt, -⟩ := List.getElem?_eq_some_iff.mp him2
    show m.icon = w.nav.selectedMarkerIcon ↔
      (if sh = true then (cm.length : Int) else -1) = (i : Int)
    refine iff_of_false ?_ ?_
    · intro hisel
      have := (hsel i m him2).mp hisel
      omega
    · intro hh
      omega
  · intro _
    show (if sh = true then (cm.length : Int) else -1) = -1 ∨
      (if sh = true then (cm.length : Int) else -1) = (w.nav.markers.length : Int)
    cases sh with
    | false => left; simp
    | true =>
      right
      simp
      omega
  · intro hcontra
    exfalso
    unfold inRange at hcontra
    obtain ⟨ha, hb⟩ := hcontra
    simp only at ha hb
    omega
  · intro _
    exact hlive
  · intro p hp
    exact hfresh p hp

/-- Any single event preserves the invariant. -/
theorem navInv_step {cm : List Marker} {w : World} (e : Ev)
    (h : NavInv cm w) : NavInv cm (stepEvW cm w e) := by
  cases e with
  | setFocus b => exact navInv_setFocus b h
  | keyDown k sh =>
    by_cases hk : k = "Tab"
    · subst hk
      by_cases hf : w.focused = true
      · by_cases hlen0 : w.nav.markers.length = 0
        · exact navInv_tab_empty h hf hlen0
        · by_cases hcin : inRange w.nav.currentMarker w.nav.markers.length
          · by_cases hcand : inRange
                (w.nav.currentMarker + (if sh then -1 else 1)) w.nav.markers.length
            · exact navInv_tab_full h hf hcin hcand
            · exact navInv_tab_exit h hf hcin hcand
          · by_cases hcand : inRange
                (w.nav.currentMarker + (if sh then -1 else 1)) w.nav.markers.length
            · exact navInv_tab_enter h hf hcin hcand
            · exact navInv_tab_noop h hf hlen0 hcin hcand
      · have hwf : w.focused = false := by
          cases hw : w.focused
          · rfl
          · exact absurd hw hf
        exact navInv_tab_outside h hwf
    · have hstep : stepEvW cm w (Ev.keyDown k sh) = w := by
        simp only [stepEvW, stepEv, dispatchKeyDown_state,
          tabNavKeydownHandler_other cm w hk sh]
      rw [hstep]
      exact h

/-- The invariant holds after any run of events. -/
theorem navInv_run {cm : List Marker} {w : World} (evs : List Ev)
    (h : NavInv cm w) : NavInv cm (runEvs cm w evs) := by
  induction evs generalizing w with
  | nil => exact h
  | cons e rest ih => exact ih (navInv_step e h)

/-- The invariant holds right after initialization, provided no marker
starts out carrying the selected icon and the deselected icon differs
from the selected one. -/
theorem navInv_init (markers : List Marker) (iconsSel iconsDesel : Option String)
    (flag : Bool) (h1 : ∀ m ∈ markers, m.icon ≠ iconsSel)
    (h2 : iconsDesel ≠ iconsSel) :
    NavInv markers (initWorld markers iconsSel iconsDesel flag) := by
  unfold initWorld keyNavInit getMarkerIconsFromMarkers
  cases flag with
  | false =>
    simp only [if_neg (by decide : ¬ false = true)]
    refine ⟨rfl, ?_, ?_, ?_, ?_, Or.inl rfl, ?_, h2, ?_, ?_, ?_⟩
    · simp
    · simp
      omega
    · intro i m him
      have him2 : markers[i]? = some m := him
      show m.icon = iconsSel ↔ (-1 : Int) = (i : Int)
      refine iff_of_false ?_ (by omega)
      intro hisel
      exact h1 m (List.getElem?_mem him2) hisel
    · intro _
      left; rfl
    · intro ic hic
      have hic2 : ic ∈ ([] : List (Option String)) := hic
      simp at hic2
    · intro hcontra
      exact absurd hcontra.1 (by norm_num)
    · intro _
      rfl
    · intro p hp
      have hp2 : p ∈ ([] : List (Nat × Int)) := hp
      simp at hp2
  | true =>
    simp only [if_pos rfl]
    refine ⟨rfl, ?_, ?_, ?_, ?_, ?_, ?_, h2, ?_, ?_, ?_⟩
    · simp
    · simp
      omega
    · intro i m him
      have him2 : markers[i]? = some m := him
      show m.icon = iconsSel ↔ (-1 : Int) = (i : Int)
      refine iff_of_false ?_ (by omega)
      intro hisel
      exact h1 m (List.getElem?_mem him2) hisel
    · intro _
      left; rfl
    · right
      simp
    · intro ic hic
      have hic2 : ic ∈ List.map Marker.icon markers := hic
      rw [List.mem_map] at hic2
      obtain ⟨m, hm, hmi⟩ := hic2
      rw [← hmi]
      exact h1 m hm
    · intro hcontra
      exact absurd hcontra.1 (by norm_num)
    · intro _
      rfl
    · intro p hp
      have hp2 : p ∈ ([] : List (Nat × Int)) := hp
      simp at hp2

/-! ## Further helper lemmas for the claim theorems -/

theorem markerSelected_iff {s : NavState} {i : Nat} {m : Marker}
    (him : s.markers[i]? = some m) :
    markerSelected s i = true ↔ m.icon = s.selectedMarkerIcon := by
  unfold markerSelected
  rw [him]
  simp

theorem focusOutHandler_cursor (s : NavState) :
    (focusOutHandler s).1.currentMarker = -1 := rfl

theorem deselectMarker_prev (s : NavState) (l : Option Nat) (midx : Int) :
    (deselectMarker s l midx).1.previousMarkerListener =
      s.previousMarkerListener := by
  simp only [deselectMarker]
  split <;> (repeat' split) <;> rfl

theorem focusOutHandler_prev (s : NavState) :
    (focusOutHandler s).1.previousMarkerListener = s.previousMarkerListener := by
  simp only [focusOutHandler]
  exact deselectMarker_prev s s.previousMarkerListener s.currentMarker

theorem flatMap_nil_fun {α β : Type} (l : List α) :
    (l.flatMap fun _ => ([] : List β)) = [] := by
  induction l with
  | nil => rfl
  | cons a t ih => simp [ih]

theorem fireListener_not_enter (f : Bool) {k : String} (hk : ¬ k = "Enter") :
    (fireListener f k) = fun _ => [] := by
  funext p
  unfold fireListener
  rw [if_neg (by rintro ⟨-, hkk⟩; exact hk hkk)]

/-- For a non-Enter keydown, the dispatch performs exactly the
navigation handler's effects: no listener fires a click. -/
theorem dispatchKeyDown_acts {k : String} (hk : ¬ k = "Enter")
    (cm : List Marker) (w : World) (sh : Bool) :
    (dispatchKeyDown cm w k sh).2.1 = (tabNavKeydownHandler cm w k sh).2.1 := by
  unfold dispatchKeyDown
  rw [fireListener_not_enter w.focused hk]
  simp [flatMap_nil_fun]

/-- Suppression flag of the dispatch is that of the handler. -/
theorem dispatchKeyDown_sup (cm : List Marker) (w : World) (k : String)
    (sh : Bool) :
    (dispatchKeyDown cm w k sh).2.2 = (tabNavKeydownHandler cm w k sh).2.2 := rfl

/-- Cursor-and-suppression behaviour of a Tab keydown while the map div
is focused: the (possibly forced) cursor advances by the direction and
is clamped against the CLOSURE-CAPTURED list's length. -/
theorem tabNav_inside_spec (cm : List Marker) (w : World) (sh : Bool)
    (hf : w.focused = true) :
    (tabNavKeydownHandler cm w "Tab" sh).1.focused = true ∧
    (tabNavKeydownHandler cm w "Tab" sh).1.nav.markers.length =
      w.nav.markers.length ∧
    ((tabNavKeydownHandler cm w "Tab" sh).1.nav.currentMarker,
      (tabNavKeydownHandler cm w "Tab" sh).2.2) =
      (if (cm.length : Int) ≤
            ((if w.nav.markers.length = 0 then 0 else w.nav.currentMarker) +
              (if sh then -1 else 1)) ∧ sh = false
       then ((cm.length : Int), false)
       else if ((if w.nav.markers.length = 0 then 0 else w.nav.currentMarker) +
              (if sh then -1 else 1)) ≤ -1 ∧ sh = true
       then ((-1 : Int), false)
       else ((if w.nav.markers.length = 0 then 0 else w.nav.currentMarker) +
              (if sh then -1 else 1), true)) := by
  have hc := iterateMarkers_cursor w.nav w.nav.previousMarkerListener sh
  have hl := iterateMarkers_length w.nav w.nav.previousMarkerListener sh
  unfold tabNavKeydownHandler
  rw [if_neg (by simp [hf]), if_pos ⟨hf, rfl⟩]
  by_cases h1 : (cm.length : Int) ≤
      (iterateMarkers w.nav w.nav.previousMarkerListener sh).1.currentMarker ∧
      sh = false
  · rw [if_pos h1]
    rw [hc] at h1
    rw [if_pos h1]
    exact ⟨hf, hl, rfl⟩
  · rw [if_neg h1]
    rw [hc] at h1
    by_cases h2 : (iterateMarkers w.nav w.nav.previousMarkerListener sh).1.currentMarker
        ≤ (-1 : Int) ∧ sh = true
    · rw [if_pos h2]
      rw [hc] at h2
      rw [if_neg h1, if_pos h2]
      exact ⟨hf, hl, rfl⟩
    · rw [if_neg h2]
      rw [hc] at h2
      rw [if_neg h1, if_neg h2]
      refine ⟨hf, hl, ?_⟩
      rw [hc]

/-- Repeated forward Tabs inside the container, while the cursor stays
strictly below the end, advance the cursor one marker per keypress. -/
theorem tab_forward_run (cm : List Marker) (k : Nat) :
    ∀ w : World, w.focused = true →
      cm.length = w.nav.markers.length →
      -1 ≤ w.nav.currentMarker →
      w.nav.currentMarker + (k : Int) < (w.nav.markers.length : Int) →
      (runEvs cm w (List.replicate k (Ev.keyDown "Tab" false))).focused = true ∧
      cm.length =
        (runEvs cm w (List.replicate k (Ev.keyDown "Tab" false))).nav.markers.length ∧
      (runEvs cm w (List.replicate k (Ev.keyDown "Tab" false))).nav.currentMarker =
        w.nav.currentMarker + (k : Int) := by
  induction k with
  | zero =>
    intro w hf hl hb hk
    refine ⟨hf, hl, ?_⟩
    simp [runEvs]
  | succ n ih =>
    intro w hf hl hb hk
    have hne : ¬ w.nav.markers.length = 0 := by omega
    have hspec := tabNav_inside_spec cm w false hf
    have hcand : ((if w.nav.markers.length = 0 then (0 : Int)
        else w.nav.currentMarker) + (if false then -1 else 1)) =
        w.nav.currentMarker + 1 := by
      rw [if_neg hne]
      norm_num
    rw [hcand] at hspec
    rw [if_neg (by
        rintro ⟨ha, -⟩
        omega),
      if_neg (by
        rintro ⟨-, hb'⟩
        exact absurd hb' (by decide))] at hspec
    obtain ⟨hf1, hl1, hp1⟩ := hspec
    rw [Prod.mk.injEq] at hp1
    obtain ⟨hc1, -⟩ := hp1
    have hw1 : stepEvW cm w (Ev.keyDown "Tab" false) =
        (tabNavKeydownHandler cm w "Tab" false).1 := by
      simp only [stepEvW, stepEv, dispatchKeyDown_state]
    have hrun : runEvs cm w (List.replicate (n + 1) (Ev.keyDown "Tab" false)) =
        runEvs cm (stepEvW cm w (Ev.keyDown "Tab" false))
          (List.replicate n (Ev.keyDown "Tab" false)) := by
      rw [List.replicate_succ]
      rfl
    rw [hrun, hw1]
    obtain ⟨ha, hb2, hc2⟩ := ih (tabNavKeydownHandler cm w "Tab" false).1 hf1
      (by rw [hl, hl1]) (by rw [hc1]; omega) (by rw [hc1, hl1]; omega)
    refine ⟨ha, hb2, ?_⟩
    rw [hc2, hc1]
    push_cast
    ring

/-! ## Claim theorems -/

/-- C1: after every key event, at most one marker is selected
(icon = selectedIcon); when the cursor is in `[0, length)` the selected
marker is exactly `markers[cursor]`, and when the cursor is a sentinel
(`-1` or `length`) no marker is selected. -/
theorem C1_selection_invariant (markers : List Marker)
    (iconsSel iconsDesel : Option String) (flag : Bool) (evs : List Ev)
    (w : World)
    (hw : w = runEvs markers (initWorld markers iconsSel iconsDesel flag) evs)
    (h1 : ∀ m ∈ markers, m.icon ≠ iconsSel) (h2 : iconsDesel ≠ iconsSel) :
    (∀ i j : Nat, i < w.nav.markers.length → j < w.nav.markers.length →
      markerSelected w.nav i = true → markerSelected w.nav j = true → i = j) ∧
    (inRange w.nav.currentMarker w.nav.markers.length →
      ∀ i : Nat, i < w.nav.markers.length →
        (markerSelected w.nav i = true ↔ (i : Int) = w.nav.currentMarker)) ∧
    ((w.nav.currentMarker = -1 ∨
        w.nav.currentMarker = (w.nav.markers.length : Int)) →
      ∀ i : Nat, i < w.nav.markers.length → markerSelected w.nav i = false) := by
  subst hw
  obtain ⟨hlen, hlb, hub, hsel, hfs, hil, hins, hdns, hliveIn, hliveOut, hfresh⟩ :=
    navInv_run evs (navInv_init markers iconsSel iconsDesel flag h1 h2)
  refine ⟨?_, ?_, ?_⟩
  · intro i j hi hj hsi hsj
    have hm := List.getElem?_eq_getElem hi
    have hm' := List.getElem?_eq_getElem hj
    have hci := (hsel i _ hm).mp ((markerSelected_iff hm).mp hsi)
    have hcj := (hsel j _ hm').mp ((markerSelected_iff hm').mp hsj)
    omega
  · intro hin i hi
    have hm := List.getElem?_eq_getElem hi
    rw [markerSelected_iff hm, hsel i _ hm]
    omega
  · intro hsent i hi
    have hm := List.getElem?_eq_getElem hi
    rw [← Bool.not_eq_true, markerSelected_iff hm, hsel i _ hm]
    omega

theorem C1_selection_invariant_wit :
    ((∀ m ∈ msA, m.icon ≠ some "s") ∧ (some "d" ≠ some "s")) ∧
    ((∀ i j : Nat, i < wSelA.nav.markers.length → j < wSelA.nav.markers.length →
      markerSelected wSelA.nav i = true → markerSelected wSelA.nav j = true →
        i = j) ∧
    (inRange wSelA.nav.currentMarker wSelA.nav.markers.length →
      ∀ i : Nat, i < wSelA.nav.markers.length →
        (markerSelected wSelA.nav i = true ↔
          (i : Int) = wSelA.nav.currentMarker)) ∧
    ((wSelA.nav.currentMarker = -1 ∨
        wSelA.nav.currentMarker = (wSelA.nav.markers.length : Int)) →
      ∀ i : Nat, i < wSelA.nav.markers.length →
        markerSelected wSelA.nav i = false)) :=
  ⟨⟨by decide, by decide⟩,
    C1_selection_invariant msA (some "s") (some "d") true evsEnterA wSelA rfl
      (by decide) (by decide)⟩

/-- C2: a Tab while the container is focused advances the cursor by
`+1` (`-1` with Shift), clamping at the sentinels and suppressing the
event exactly when no sentinel is reached; and from the armed OUTSIDE
state (`cursor = -1`) with `N` markers, the first `N` forward Tabs are
suppressed and the `(N+1)`-st ends with `cursor = N`, unsuppressed. -/
theorem C2_tab_step_and_exit (cm : List Marker) (w : World)
    (hf : w.focused = true)
    (hlen : cm.length = w.nav.markers.length)
    (hlb : -1 ≤ w.nav.currentMarker)
    (hub : w.nav.currentMarker ≤ (w.nav.markers.length : Int)) :
    (∀ sh : Bool,
      ((dispatchKeyDown cm w "Tab" sh).1.nav.currentMarker,
        (dispatchKeyDown cm w "Tab" sh).2.2) =
        (if sh then
          (if w.nav.currentMarker - 1 ≤ -1 then ((-1 : Int), false)
           else (w.nav.currentMarker - 1, true))
         else
          (if (w.nav.markers.length : Int) ≤ w.nav.currentMarker + 1
           then ((w.nav.markers.length : Int), false)
           else (w.nav.currentMarker + 1, true)))) ∧
    (w.nav.currentMarker = -1 →
      (∀ k : Nat, k < w.nav.markers.length →
        (stepEv cm (runEvs cm w (List.replicate k (Ev.keyDown "Tab" false)))
          (Ev.keyDown "Tab" false)).2.2 = true) ∧
      (stepEv cm (runEvs cm w (List.replicate w.nav.markers.length
          (Ev.keyDown "Tab" false))) (Ev.keyDown "Tab" false)).2.2 = false ∧
      (runEvs cm w (List.replicate (w.nav.markers.length + 1)
          (Ev.keyDown "Tab" false))).nav.currentMarker =
        (w.nav.markers.length : Int)) := by
  constructor
  · intro sh
    have hpair := (tabNav_inside_spec cm w sh hf).2.2
    have hds : ((dispatchKeyDown cm w "Tab" sh).1.nav.currentMarker,
        (dispatchKeyDown cm w "Tab" sh).2.2) =
        ((tabNavKeydownHandler cm w "Tab" sh).1.nav.currentMarker,
          (tabNavKeydownHandler cm w "Tab" sh).2.2) := rfl
    rw [hds, hpair]
    cases sh with
    | false =>
      norm_num
      by_cases hE : w.nav.markers = []
      · have hl0 : w.nav.markers.length = 0 := by rw [hE]; rfl
        rw [if_pos hE, if_pos (by omega), if_pos (by omega), Prod.mk.injEq]
        exact ⟨by omega, rfl⟩
      · have hl0 : ¬ w.nav.markers.length = 0 :=
          fun h => hE (List.length_eq_zero.mp h)
        rw [if_neg hE]
        by_cases hcl : (w.nav.markers.length : Int) ≤ w.nav.currentMarker + 1
        · rw [if_pos (by omega), if_pos hcl, Prod.mk.injEq]
          exact ⟨by omega, rfl⟩
        · rw [if_neg (by omega), if_neg hcl]
    | true =>
      norm_num
      by_cases hE : w.nav.markers = []
      · have hl0 : w.nav.markers.length = 0 := by rw [hE]; rfl
        rw [if_pos hE, if_pos (by omega), if_pos (by omega)]
      · rw [if_neg hE]
        by_cases hcl : w.nav.currentMarker ≤ 0
        · rw [if_pos hcl, if_pos hcl]
        · rw [if_neg hcl, if_neg hcl, Prod.mk.injEq]
          exact ⟨by omega, rfl⟩
  · intro hcur
    have hall : ∀ k : Nat, k ≤ w.nav.markers.length →
        (runEvs cm w (List.replicate k (Ev.keyDown "Tab" false))).focused = true ∧
        cm.length = (runEvs cm w
          (List.replicate k (Ev.keyDown "Tab" false))).nav.markers.length ∧
        (runEvs cm w (List.replicate k (Ev.keyDown "Tab" false))).nav.currentMarker
          = -1 + (k : Int) := by
      intro k hk
      obtain ⟨x, y, z⟩ := tab_forward_run cm k w hf hlen hlb (by rw [hcur]; omega)
      exact ⟨x, y, by rw [z, hcur]⟩
    have hsupp : ∀ k : Nat, k ≤ w.nav.markers.length →
        ((stepEv cm (runEvs cm w (List.replicate k (Ev.keyDown "Tab" false)))
            (Ev.keyDown "Tab" false)).2.2 =
          decide (k < w.nav.markers.length)) ∧
        (stepEv cm (runEvs cm w (List.replicate k (Ev.keyDown "Tab" false)))
            (Ev.keyDown "Tab" false)).1.nav.currentMarker =
          (if k < w.nav.markers.length then (-1 : Int) + k + 1
           else (w.nav.markers.length : Int)) := by
      intro k hk
      obtain ⟨hfk, hlk, hck⟩ := hall k hk
      have hpair := (tabNav_inside_spec cm
        (runEvs cm w (List.replicate k (Ev.keyDown "Tab" false))) false hfk).2.2
      have hA : (stepEv cm (runEvs cm w (List.replicate k (Ev.keyDown "Tab" false)))
            (Ev.keyDown "Tab" false)).2.2 =
          (tabNavKeydownHandler cm
            (runEvs cm w (List.replicate k (Ev.keyDown "Tab" false)))
            "Tab" false).2.2 := rfl
      have hB : (stepEv cm (runEvs cm w (List.replicate k (Ev.keyDown "Tab" false)))
            (Ev.keyDown "Tab" false)).1.nav.currentMarker =
          (tabNavKeydownHandler cm
            (runEvs cm w (List.replicate k (Ev.keyDown "Tab" false)))
            "Tab" false).1.nav.currentMarker := rfl
      norm_num at hpair
      rw [hck] at hpair
      by_cases hE : (runEvs cm w (List.replicate k (Ev.keyDown "Tab" false))).nav.markers = []
      · have hl0 : (runEvs cm w (List.replicate k
            (Ev.keyDown "Tab" false))).nav.markers.length = 0 := by
          rw [hE]; rfl
        rw [if_pos hE, if_pos (by omega)] at hpair
        rw [Prod.mk.injEq] at hpair
        obtain ⟨hcU, hsU⟩ := hpair
        constructor
        · rw [hA, hsU]
          have : ¬ k < w.nav.markers.length := by omega
          simp [this]
        · rw [hB, hcU, if_neg (by omega)]
          omega
      · have hl0 : ¬ (runEvs cm w (List.replicate k
            (Ev.keyDown "Tab" false))).nav.markers.length = 0 :=
          fun h => hE (List.length_eq_zero.mp h)
        rw [if_neg hE] at hpair
        by_cases hklt : k < w.nav.markers.length
        · rw [if_neg (by omega)] at hpair
          rw [Prod.mk.injEq] at hpair
          obtain ⟨hcU, hsU⟩ := hpair
          constructor
          · rw [hA, hsU]
            simp [hklt]
          · rw [hB, hcU, if_pos hklt]
        · rw [if_pos (by omega)] at hpair
          rw [Prod.mk.injEq] at hpair
          obtain ⟨hcU, hsU⟩ := hpair
          constructor
          · rw [hA, hsU]
            simp [hklt]
          · rw [hB, hcU, if_neg hklt]
            omega
    constructor
    · intro k hk
      have := (hsupp k (by omega)).1
      rw [this]
      simp [hk]
    constructor
    · have := (hsupp w.nav.markers.length (le_refl _)).1
      rw [this]
      simp
    · have hstep := (hsupp w.nav.markers.length (le_refl _)).2
      rw [if_neg (by omega)] at hstep
      have hrepl : List.replicate (w.nav.markers.length + 1) (Ev.keyDown "Tab" false) =
          List.replicate w.nav.markers.length (Ev.keyDown "Tab" false) ++
            [Ev.keyDown "Tab" false] := by
        rw [← List.replicate_succ']
      rw [hrepl]
      unfold runEvs
      rw [List.foldl_append]
      exact hstep

theorem C2_tab_step_and_exit_wit :
    (wArmA.focused = true ∧ msA.length = wArmA.nav.markers.length ∧
      -1 ≤ wArmA.nav.currentMarker ∧
      wArmA.nav.currentMarker ≤ (wArmA.nav.markers.length : Int)) ∧
    ((∀ sh : Bool,
      ((dispatchKeyDown msA wArmA "Tab" sh).1.nav.currentMarker,
        (dispatchKeyDown msA wArmA "Tab" sh).2.2) =
        (if sh then
          (if wArmA.nav.currentMarker - 1 ≤ -1 then ((-1 : Int), false)
           else (wArmA.nav.currentMarker - 1, true))
         else
          (if (wArmA.nav.markers.length : Int) ≤ wArmA.nav.currentMarker + 1
           then ((wArmA.nav.markers.length : Int), false)
           else (wArmA.nav.currentMarker + 1, true)))) ∧
    (wArmA.nav.currentMarker = -1 →
      (∀ k : Nat, k < wArmA.nav.markers.length →
        (stepEv msA (runEvs msA wArmA (List.replicate k (Ev.keyDown "Tab" false)))
          (Ev.keyDown "Tab" false)).2.2 = true) ∧
      (stepEv msA (runEvs msA wArmA (List.replicate wArmA.nav.markers.length
          (Ev.keyDown "Tab" false))) (Ev.keyDown "Tab" false)).2.2 = false ∧
      (runEvs msA wArmA (List.replicate (wArmA.nav.markers.length + 1)
          (Ev.keyDown "Tab" false))).nav.currentMarker =
        (wArmA.nav.markers.length : Int))) :=
  ⟨⟨by decide, by decide, by decide, by decide⟩,
    C2_tab_step_and_exit msA wArmA (by decide) (by decide) (by decide) (by decide)⟩

/-- C3 counterexample: on an empty marker list with the cursor at the
`-1` sentinel, the step does NOT commit `cursor ← cursor + direction`:
the code first forces the cursor to `0`, so a forward step commits `1`
while `cursor + direction` is `0`. -/
theorem C3_candidate_cex :
    (iterateMarkers sEmptyA none false).1.currentMarker = 1 ∧
    sEmptyA.currentMarker + 1 = 0 := by decide

/-- C3 (amended): the step first selects the marker at the candidate
index (pre-advance cursor plus direction — except that on an empty list
the cursor is first forced to `0`), a no-op when out of range; then
deselects the marker at the pre-advance cursor, restoring the captured
`markerIcons` entry at the pre-advance index when icons were captured
and the shared deselected icon otherwise; and only then commits the
candidate as the new cursor. -/
theorem C3_step_order (s s0 : NavState) (l : Option Nat) (sh : Bool) (cand : Int)
    (hs0 : s0 = (if s.markers.length = 0 then { s with currentMarker := 0 } else s))
    (hcand : cand = s0.currentMarker + (if sh then -1 else 1)) :
    (iterateMarkers s l sh).2.1 =
      ((match jsIndex s0.markers cand with
        | some mc => [Act.setIcon cand s.selectedMarkerIcon, Act.panTo mc.pos,
            Act.addListener s.nextListenerId]
        | none => []) ++
       (match jsIndex s0.markers s0.currentMarker with
        | some _ => Act.setIcon s0.currentMarker (restoreIcon s0) ::
            l.toList.map Act.removeListener
        | none => [])) ∧
    (iterateMarkers s l sh).1.currentMarker = cand := by
  subst hs0
  subst hcand
  by_cases hlen0 : s.markers.length = 0
  · have he : s.markers = [] := List.length_eq_zero.mp hlen0
    have hnil : ∀ i : Int, jsIndex ([] : List Marker) i = none := by
      intro i
      rw [jsIndex_eq_none]
      simp
      omega
    rw [iterateMarkers_empty he l sh]
    rw [if_pos hlen0]
    constructor
    · simp only
      rw [he, hnil, hnil]
      rfl
    · simp only
      cases sh <;> norm_num
  · rw [if_neg hlen0]
    rcases hsel : jsIndex s.markers (s.currentMarker + (if sh then -1 else 1))
      with - | mc <;>
      rcases hdes : jsIndex s.markers s.currentMarker with - | md
    · rw [iterateMarkers_noop hlen0 hsel hdes l]
      exact ⟨rfl, rfl⟩
    · rw [iterateMarkers_exit hlen0 hsel hdes l]
      exact ⟨rfl, rfl⟩
    · rw [iterateMarkers_enter hlen0 hsel hdes l]
      exact ⟨rfl, rfl⟩
    · rw [iterateMarkers_step_full hlen0 hsel hdes l]
      exact ⟨rfl, rfl⟩

theorem C3_step_order_wit :
    ((wSelA.nav = (if wSelA.nav.markers.length = 0
        then { wSelA.nav with currentMarker := 0 } else wSelA.nav)) ∧
      ((0 : Int) + 1 = wSelA.nav.currentMarker + (if false then -1 else 1))) ∧
    ((iterateMarkers wSelA.nav (some 0) false).2.1 =
      ((match jsIndex wSelA.nav.markers ((0 : Int) + 1) with
        | some mc => [Act.setIcon ((0 : Int) + 1) wSelA.nav.selectedMarkerIcon,
            Act.panTo mc.pos, Act.addListener wSelA.nav.nextListenerId]
        | none => []) ++
       (match jsIndex wSelA.nav.markers wSelA.nav.currentMarker with
        | some _ => Act.setIcon wSelA.nav.currentMarker (restoreIcon wSelA.nav) ::
            (some 0 : Option Nat).toList.map Act.removeListener
        | none => [])) ∧
    (iterateMarkers wSelA.nav (some 0) false).1.currentMarker = (0 : Int) + 1) := by
  refine ⟨⟨by decide, by decide⟩, ?_⟩
  have h := C3_step_order wSelA.nav wSelA.nav (some 0) false ((0 : Int) + 1)
    (by decide) (by decide)
  exact h

/-- C5 counterexample: re-binding from a 3-marker list with marker 2
selected to a 1-marker list leaves the cursor at `2`, strictly past the
new list's bounds (even past the `length` sentinel). -/
theorem C5_cursor_cex :
    (updateMarkerCount wSel3A.nav msB).currentMarker = 2 ∧
    (updateMarkerCount wSel3A.nav msB).markers.length = 1 := by decide

/-- C5 (amended): re-binding replaces the stored markers, recomputes
the per-marker icons from the new list (unconditionally, whether or not
distinct-icon mode was enabled) so their count matches the new length,
and clears the stored activation-listener reference; but it leaves the
cursor (and the set of attached listeners) untouched, so a prior
selection index may point past the new list's bounds. -/
theorem C5_rebind (s : NavState) (markers : List Marker) :
    (updateMarkerCount s markers).markers = markers ∧
    (updateMarkerCount s markers).markerIcons = markers.map Marker.icon ∧
    (updateMarkerCount s markers).markerIcons.length = markers.length ∧
    (updateMarkerCount s markers).previousMarkerListener = none ∧
    (updateMarkerCount s markers).currentMarker = s.currentMarker ∧
    (updateMarkerCount s markers).liveListeners = s.liveListeners :=
  ⟨rfl, rfl, by simp [updateMarkerCount, getMarkerIconsFromMarkers], rfl, rfl, rfl⟩

/-- C8 counterexample: deselecting a missing marker while a listener
handle is passed does NOT detach the listener: with listener `0` still
attached, `deselectMarker` on the out-of-range index `5` returns the
state unchanged (listener 0 still live) and performs no effect at all —
in particular no `removeListener`. -/
theorem C8_detach_cex :
    deselectMarker wSelA.nav (some 0) 5 = (wSelA.nav, []) ∧
    wSelA.nav.liveListeners = [(0, 0)] := by decide

/-- C8 (amended): operating on an absent marker is a complete silent
no-op: selecting a missing marker changes no state and returns no
listener, and deselecting a missing marker changes no state either —
the passed listener is NOT detached (the function returns before the
removal). -/
theorem C8_missing_noop (s : NavState) (l : Option Nat) (midx : Int)
    (h : jsIndex s.markers midx = none) :
    selectMarker s midx = (s, [], none) ∧ deselectMarker s l midx = (s, []) :=
  ⟨selectMarker_absent h, deselectMarker_absent h⟩

theorem C8_missing_noop_wit :
    (jsIndex wSelA.nav.markers 5 = none) ∧
    (selectMarker wSelA.nav 5 = (wSelA.nav, [], none) ∧
      deselectMarker wSelA.nav (some 0) 5 = (wSelA.nav, [])) :=
  ⟨by decide, C8_missing_noop wSelA.nav (some 0) 5 (by decide)⟩

/-- C6: a Tab keydown while the focused element is not the map div
arms the cursor: `-1` without Shift (forward entry), the marker list's
length with Shift (backward entry); consequently the first Tab after
focus moves into the container selects index `0` going forward and
index `length - 1` going backward. -/
theorem C6_arming (cm : List Marker) (w : World) (sh : Bool)
    (hwf : w.focused = false) (hcm : cm = w.nav.markers) :
    ((dispatchKeyDown cm w "Tab" sh).1.nav.currentMarker =
      if sh then (w.nav.markers.length : Int) else -1) ∧
    (¬ w.nav.markers.length = 0 →
      (dispatchKeyDown cm
          { nav := (dispatchKeyDown cm w "Tab" sh).1.nav, focused := true }
          "Tab" sh).1.nav.currentMarker =
        if sh then (w.nav.markers.length : Int) - 1 else 0) := by
  subst hcm
  have harm : (dispatchKeyDown w.nav.markers w "Tab" sh).1.nav =
      { w.nav with currentMarker :=
          if sh then (w.nav.markers.length : Int) else -1 } := by
    have hds : (dispatchKeyDown w.nav.markers w "Tab" sh).1 =
        (tabNavKeydownHandler w.nav.markers w "Tab" sh).1 := rfl
    rw [hds]
    unfold tabNavKeydownHandler
    rw [if_pos ⟨rfl, hwf⟩]
    cases sh <;> rfl
  constructor
  · rw [harm]
  · intro hne
    have hnil : ¬ w.nav.markers = [] := fun h => hne (by rw [h]; rfl)
    rw [harm]
    have hds2 : ∀ ww : World, (dispatchKeyDown w.nav.markers ww "Tab" sh).1 =
        (tabNavKeydownHandler w.nav.markers ww "Tab" sh).1 :=
      fun _ => rfl
    rw [hds2]
    cases sh with
    | false =>
      norm_num
      have hpair := (tabNav_inside_spec w.nav.markers
        { nav := { w.nav with currentMarker := -1 }, focused := true }
        false rfl).2.2
      norm_num at hpair
      rw [if_neg hnil, if_neg (by omega)] at hpair
      rw [Prod.mk.injEq] at hpair
      rw [hpair.1]
      norm_num
    | true =>
      norm_num
      have hpair := (tabNav_inside_spec w.nav.markers
        { nav := { w.nav with currentMarker := (w.nav.markers.length : Int) },
          focused := true }
        true rfl).2.2
      norm_num at hpair
      rw [if_neg hnil, if_neg (by omega)] at hpair
      rw [Prod.mk.injEq] at hpair
      rw [hpair.1]
      omega

theorem C6_arming_wit :
    ((wInitA.focused = false ∧ msA = wInitA.nav.markers) ∧
    (∀ sh : Bool,
      ((dispatchKeyDown msA wInitA "Tab" sh).1.nav.currentMarker =
        if sh then (wInitA.nav.markers.length : Int) else -1) ∧
      (¬ wInitA.nav.markers.length = 0 →
        (dispatchKeyDown msA
            { nav := (dispatchKeyDown msA wInitA "Tab" sh).1.nav, focused := true }
            "Tab" sh).1.nav.currentMarker =
          if sh then (wInitA.nav.markers.length : Int) - 1 else 0))) :=
  ⟨⟨by decide, by decide⟩,
    fun sh => C6_arming msA wInitA sh (by decide) (by decide)⟩

/-- C7 counterexample: after selecting marker 0 and then losing focus,
the cursor is reset to `-1` but the stored activation-listener
reference (`previousMarkerListener`) is NOT null — the focusout handler
never clears it. -/
theorem C7_listener_ref_cex :
    (stepEvW msA wSelA (Ev.setFocus false)).nav.currentMarker = -1 ∧
    (stepEvW msA wSelA (Ev.setFocus false)).nav.previousMarkerListener
      = some 0 := by decide

/-- C7 (amended): whenever the container loses focus, the selected
marker (if any) is deselected and the cursor is reset to `-1`
regardless of its prior value; afterwards no marker is selected and no
activation listener remains attached — but the stored listener
reference is left unchanged, not nulled. -/
theorem C7_focusout_reset (markers : List Marker)
    (iconsSel iconsDesel : Option String) (flag : Bool) (evs : List Ev)
    (w : World)
    (hw : w = runEvs markers (initWorld markers iconsSel iconsDesel flag) evs)
    (h1 : ∀ m ∈ markers, m.icon ≠ iconsSel) (h2 : iconsDesel ≠ iconsSel)
    (hf : w.focused = true) :
    (stepEvW markers w (Ev.setFocus false)).nav.currentMarker = -1 ∧
    (∀ i : Nat, i < (stepEvW markers w (Ev.setFocus false)).nav.markers.length →
      markerSelected (stepEvW markers w (Ev.setFocus false)).nav i = false) ∧
    (stepEvW markers w (Ev.setFocus false)).nav.liveListeners = [] ∧
    (stepEvW markers w (Ev.setFocus false)).nav.previousMarkerListener =
      w.nav.previousMarkerListener := by
  have hInv2 : NavInv markers (stepEvW markers w (Ev.setFocus false)) := by
    rw [hw]
    exact navInv_step (Ev.setFocus false)
      (navInv_run evs (navInv_init markers iconsSel iconsDesel flag h1 h2))
  have hcur : (stepEvW markers w (Ev.setFocus false)).nav.currentMarker = -1 := by
    simp only [stepEvW, stepEv]
    rw [if_pos (show w.focused = true ∧ True from ⟨hf, trivial⟩)]
    exact focusOutHandler_cursor w.nav
  have hprev : (stepEvW markers w (Ev.setFocus false)).nav.previousMarkerListener
      = w.nav.previousMarkerListener := by
    simp only [stepEvW, stepEv]
    rw [if_pos (show w.focused = true ∧ True from ⟨hf, trivial⟩)]
    exact focusOutHandler_prev w.nav
  refine ⟨hcur, ?_, ?_, hprev⟩
  · intro i hi
    have him := List.getElem?_eq_getElem hi
    rw [← Bool.not_eq_true, markerSelected_iff him, hInv2.selIff i _ him, hcur]
    omega
  · refine hInv2.liveOut ?_
    intro hc
    rw [hcur] at hc
    exact absurd hc.1 (by norm_num)

theorem C7_focusout_reset_wit :
    ((∀ m ∈ msA, m.icon ≠ some "s") ∧ (some "d" ≠ some "s") ∧
      wSelA.focused = true) ∧
    ((stepEvW msA wSelA (Ev.setFocus false)).nav.currentMarker = -1 ∧
    (∀ i : Nat, i < (stepEvW msA wSelA (Ev.setFocus false)).nav.markers.length →
      markerSelected (stepEvW msA wSelA (Ev.setFocus false)).nav i = false) ∧
    (stepEvW msA wSelA (Ev.setFocus false)).nav.liveListeners = [] ∧
    (stepEvW msA wSelA (Ev.setFocus false)).nav.previousMarkerListener =
      wSelA.nav.previousMarkerListener) :=
  ⟨⟨by decide, by decide, by decide⟩,
    C7_focusout_reset msA (some "s") (some "d") true evsEnterA wSelA rfl
      (by decide) (by decide) (by decide)⟩

/-- A Tab keydown while focused performs exactly the step's effects,
whichever clamp branch is taken. -/
theorem tabNav_inside_acts (cm : List Marker) (w : World) (sh : Bool)
    (hf : w.focused = true) :
    (tabNavKeydownHandler cm w "Tab" sh).2.1 =
      (iterateMarkers w.nav w.nav.previousMarkerListener sh).2.1 := by
  unfold tabNavKeydownHandler
  rw [if_neg (by simp [hf]), if_pos ⟨hf, rfl⟩]
  by_cases h1 : (cm.length : Int) ≤
      (iterateMarkers w.nav w.nav.previousMarkerListener sh).1.currentMarker ∧
      sh = false
  · rw [if_pos h1]
  · rw [if_neg h1]
    by_cases h2 : (iterateMarkers w.nav w.nav.previousMarkerListener sh).1.currentMarker
        ≤ (-1 : Int) ∧ sh = true
    · rw [if_pos h2]
    · rw [if_neg h2]

/-- C4 counterexample: in the step from marker 0 to marker 1, the
effect trace attaches the new listener (index 2) strictly BEFORE
removing the old one (index 4): the old listener is not detached
before-or-while the new one is attached, and at the intermediate point
two listeners are live. -/
theorem C4_order_cex :
    (stepEv msA wSelA (Ev.keyDown "Tab" false)).2.1 =
      [Act.setIcon 1 (some "s"), Act.panTo 20, Act.addListener 1,
       Act.setIcon 0 (some "a"), Act.removeListener 0] ∧
    ¬ detachNotAfterAttach (stepEv msA wSelA (Ev.keyDown "Tab" false)).2.1 0 1 ∧
    ¬ atMostOneLiveThroughout
        (stepEv msA wSelA (Ev.keyDown "Tab" false)).2.1 [0] := by decide

/-- C4 (amended): in any run of key/focus events from initialization,
at most one Enter listener is live at every event boundary, and one is
live exactly when the cursor designates a real marker; within a step
from one real marker to another, the NEW listener is attached first and
the old one detached only afterwards, so two listeners are briefly live
mid-step, and exactly the new one remains at the end of the step. -/
theorem C4_listener_lifecycle (markers : List Marker)
    (iconsSel iconsDesel : Option String) (flag : Bool) (evs : List Ev)
    (w : World)
    (hw : w = runEvs markers (initWorld markers iconsSel iconsDesel flag) evs)
    (h1 : ∀ m ∈ markers, m.icon ≠ iconsSel) (h2 : iconsDesel ≠ iconsSel) :
    (w.nav.liveListeners.length ≤ 1 ∧
      (w.nav.liveListeners ≠ [] ↔
        inRange w.nav.currentMarker w.nav.markers.length)) ∧
    (∀ sh : Bool, w.focused = true →
      inRange (w.nav.currentMarker + (if sh then -1 else 1))
        w.nav.markers.length →
      inRange w.nav.currentMarker w.nav.markers.length →
      ∃ lid mc md,
        w.nav.previousMarkerListener = some lid ∧
        jsIndex w.nav.markers
          (w.nav.currentMarker + (if sh then -1 else 1)) = some mc ∧
        jsIndex w.nav.markers w.nav.currentMarker = some md ∧
        (stepEv markers w (Ev.keyDown "Tab" sh)).2.1 =
          [Act.setIcon (w.nav.currentMarker + (if sh then -1 else 1))
              w.nav.selectedMarkerIcon,
            Act.panTo mc.pos, Act.addListener w.nav.nextListenerId,
            Act.setIcon w.nav.currentMarker (restoreIcon w.nav),
            Act.removeListener lid] ∧
        (liveAfter ((stepEv markers w (Ev.keyDown "Tab" sh)).2.1.take 3)
            [lid]).length = 2 ∧
        liveAfter (stepEv markers w (Ev.keyDown "Tab" sh)).2.1 [lid] =
          [w.nav.nextListenerId]) := by
  subst hw
  obtain ⟨hlen, hlb, hub, hsel, hfs, hil, hins, hdns, hliveIn, hliveOut, hfresh⟩ :=
    navInv_run evs (navInv_init markers iconsSel iconsDesel flag h1 h2)
  constructor
  · by_cases hin : inRange
        (runEvs markers (initWorld markers iconsSel iconsDesel flag) evs).nav.currentMarker
        (runEvs markers (initWorld markers iconsSel iconsDesel flag) evs).nav.markers.length
    · obtain ⟨lid, hprev, hlive⟩ := hliveIn hin
      rw [hlive]
      exact ⟨by simp, by simp [hin]⟩
    · rw [hliveOut hin]
      exact ⟨by simp, by simp [hin]⟩
  · intro sh hfoc hcand hcin
    obtain ⟨lid, hprev, hlive⟩ := hliveIn hcin
    obtain ⟨hjc, mc, hmc⟩ := jsIndex_present hcand.1 hcand.2
    obtain ⟨hjd, md, hmd⟩ := jsIndex_present hcin.1 hcin.2
    have hselF : jsIndex
        (runEvs markers (initWorld markers iconsSel iconsDesel flag) evs).nav.markers
        ((runEvs markers (initWorld markers iconsSel iconsDesel flag) evs).nav.currentMarker
          + (if sh then -1 else 1)) = some mc := by rw [hjc]; exact hmc
    have hdesF : jsIndex
        (runEvs markers (initWorld markers iconsSel iconsDesel flag) evs).nav.markers
        (runEvs markers (initWorld markers iconsSel iconsDesel flag) evs).nav.currentMarker
        = some md := by rw [hjd]; exact hmd
    have hlen0 : ¬ (runEvs markers
        (initWorld markers iconsSel iconsDesel flag) evs).nav.markers.length = 0 := by
      have := hcin.1
      have := hcin.2
      omega
    have hld : lid < (runEvs markers
        (initWorld markers iconsSel iconsDesel flag) evs).nav.nextListenerId := by
      refine hfresh (lid,
        (runEvs markers (initWorld markers iconsSel iconsDesel flag)
          evs).nav.currentMarker) ?_
      rw [hlive]
      exact List.mem_singleton_self _
    have hbne : (((runEvs markers
        (initWorld markers iconsSel iconsDesel flag) evs).nav.nextListenerId : Nat)
        != lid) = true := by
      simpa using hld.ne'
    refine ⟨lid, mc, md, hprev, hselF, hdesF, ?_⟩
    have hacts : (stepEv markers
        (runEvs markers (initWorld markers iconsSel iconsDesel flag) evs)
        (Ev.keyDown "Tab" sh)).2.1 =
        (iterateMarkers
          (runEvs markers (initWorld markers iconsSel iconsDesel flag) evs).nav
          (runEvs markers (initWorld markers iconsSel iconsDesel flag) evs).nav.previousMarkerListener
          sh).2.1 := by
      have h0 : (stepEv markers
          (runEvs markers (initWorld markers iconsSel iconsDesel flag) evs)
          (Ev.keyDown "Tab" sh)).2.1 =
          (dispatchKeyDown markers
            (runEvs markers (initWorld markers iconsSel iconsDesel flag) evs)
            "Tab" sh).2.1 := rfl
      rw [h0, dispatchKeyDown_acts (by decide)]
      exact tabNav_inside_acts markers _ sh hfoc
    rw [hacts, hprev, iterateMarkers_step_full hlen0 hselF hdesF (some lid)]
    refine ⟨rfl, ?_, ?_⟩
    · rfl
    · show liveAfter [_, _, _, _, Act.removeListener lid] [lid] = _
      simp [liveAfter, hbne]

theorem C4_listener_lifecycle_wit :
    ((∀ m ∈ msA, m.icon ≠ some "s") ∧ (some "d" ≠ some "s")) ∧
    ((wSelA.nav.liveListeners.length ≤ 1 ∧
      (wSelA.nav.liveListeners ≠ [] ↔
        inRange wSelA.nav.currentMarker wSelA.nav.markers.length)) ∧
    (∀ sh : Bool, wSelA.focused = true →
      inRange (wSelA.nav.currentMarker + (if sh then -1 else 1))
        wSelA.nav.markers.length →
      inRange wSelA.nav.currentMarker wSelA.nav.markers.length →
      ∃ lid mc md,
        wSelA.nav.previousMarkerListener = some lid ∧
        jsIndex wSelA.nav.markers
          (wSelA.nav.currentMarker + (if sh then -1 else 1)) = some mc ∧
        jsIndex wSelA.nav.markers wSelA.nav.currentMarker = some md ∧
        (stepEv msA wSelA (Ev.keyDown "Tab" sh)).2.1 =
          [Act.setIcon (wSelA.nav.currentMarker + (if sh then -1 else 1))
              wSelA.nav.selectedMarkerIcon,
            Act.panTo mc.pos, Act.addListener wSelA.nav.nextListenerId,
            Act.setIcon wSelA.nav.currentMarker (restoreIcon wSelA.nav),
            Act.removeListener lid] ∧
        (liveAfter ((stepEv msA wSelA (Ev.keyDown "Tab" sh)).2.1.take 3)
            [lid]).length = 2 ∧
        liveAfter (stepEv msA wSelA (Ev.keyDown "Tab" sh)).2.1 [lid] =
          [wSelA.nav.nextListenerId])) :=
  ⟨⟨by decide, by decide⟩,
    C4_listener_lifecycle msA (some "s") (some "d") true evsEnterA wSelA rfl
      (by decide) (by decide)⟩

theorem filter_contains_self (l : List (Nat × Int)) :
    l.filter (fun p => l.contains p) = l :=
  List.filter_eq_self.mpr (fun a ha => by simpa using ha)

theorem fireListener_unfocused (k : String) :
    fireListener false k = fun _ => [] := by
  funext p
  unfold fireListener
  rw [if_neg (by rintro ⟨hb, -⟩; cases hb)]

theorem stepEvW_setFocus_false_focused (cm : List Marker) (w : World) :
    (stepEvW cm w (Ev.setFocus false)).focused = false := by
  simp only [stepEvW, stepEv]
  split <;> rfl

/-- C9: selecting a present marker sets its icon to the selected icon,
pans the map to the marker's position, attaches a fresh Enter listener
and returns its handle; and an Enter keydown while the container is
focused with a marker selected triggers exactly one synthetic click, on
the selected marker — while after focus is lost an Enter keydown
triggers none. -/
theorem C9_select_and_enter (markers : List Marker)
    (iconsSel iconsDesel : Option String) (flag : Bool) (evs : List Ev)
    (w : World) (sh : Bool)
    (hw : w = runEvs markers (initWorld markers iconsSel iconsDesel flag) evs)
    (h1 : ∀ m ∈ markers, m.icon ≠ iconsSel) (h2 : iconsDesel ≠ iconsSel)
    (hfoc : w.focused = true)
    (hcin : inRange w.nav.currentMarker w.nav.markers.length) :
    (∀ (s : NavState) (midx : Int) (m : Marker),
      jsIndex s.markers midx = some m →
      (selectMarker s midx).2.1 =
        [Act.setIcon midx s.selectedMarkerIcon, Act.panTo m.pos,
          Act.addListener s.nextListenerId] ∧
      (selectMarker s midx).2.2 = some s.nextListenerId ∧
      (selectMarker s midx).1.markers =
        s.markers.set midx.toNat { m with icon := s.selectedMarkerIcon } ∧
      (selectMarker s midx).1.liveListeners =
        s.liveListeners ++ [(s.nextListenerId, midx)]) ∧
    clickActs (dispatchKeyDown markers w "Enter" sh).2.1 =
      [Act.triggerClick w.nav.currentMarker] ∧
    (dispatchKeyDown markers w "Enter" sh).1 = w ∧
    clickActs (dispatchKeyDown markers
      (stepEvW markers w (Ev.setFocus false)) "Enter" sh).2.1 = [] := by
  have hInv : NavInv markers w := by
    rw [hw]
    exact navInv_run evs (navInv_init markers iconsSel iconsDesel flag h1 h2)
  obtain ⟨lid, hprev, hlive⟩ := hInv.liveIn hcin
  have hother := tabNavKeydownHandler_other markers w
    (show ¬ "Enter" = "Tab" by decide) sh
  refine ⟨?_, ?_, ?_, ?_⟩
  · intro s midx m hm
    rw [selectMarker_present hm]
    exact ⟨rfl, rfl, rfl, rfl⟩
  · show clickActs ((tabNavKeydownHandler markers w "Enter" sh).2.1 ++
      (w.nav.liveListeners.filter (fun p =>
        (tabNavKeydownHandler markers w "Enter" sh).1.nav.liveListeners.contains p)).flatMap
        (fireListener w.focused "Enter")) = _
    rw [hother]
    simp only
    rw [filter_contains_self, hlive, hfoc]
    rfl
  · show (tabNavKeydownHandler markers w "Enter" sh).1 = w
    rw [hother]
  · have hf2 := stepEvW_setFocus_false_focused markers w
    show clickActs ((tabNavKeydownHandler markers
        (stepEvW markers w (Ev.setFocus false)) "Enter" sh).2.1 ++
      ((stepEvW markers w (Ev.setFocus false)).nav.liveListeners.filter (fun p =>
        (tabNavKeydownHandler markers (stepEvW markers w (Ev.setFocus false))
          "Enter" sh).1.nav.liveListeners.contains p)).flatMap
        (fireListener (stepEvW markers w (Ev.setFocus false)).focused "Enter")) = _
    rw [tabNavKeydownHandler_other markers _ (show ¬ "Enter" = "Tab" by decide) sh]
    simp only
    rw [hf2, fireListener_unfocused, flatMap_nil_fun]
    rfl

theorem C9_select_and_enter_wit :
    ((∀ m ∈ msA, m.icon ≠ some "s") ∧ (some "d" ≠ some "s") ∧
      wSelA.focused = true ∧
      inRange wSelA.nav.currentMarker wSelA.nav.markers.length) ∧
    ((∀ (s : NavState) (midx : Int) (m : Marker),
      jsIndex s.markers midx = some m →
      (selectMarker s midx).2.1 =
        [Act.setIcon midx s.selectedMarkerIcon, Act.panTo m.pos,
          Act.addListener s.nextListenerId] ∧
      (selectMarker s midx).2.2 = some s.nextListenerId ∧
      (selectMarker s midx).1.markers =
        s.markers.set midx.toNat { m with icon := s.selectedMarkerIcon } ∧
      (selectMarker s midx).1.liveListeners =
        s.liveListeners ++ [(s.nextListenerId, midx)]) ∧
    clickActs (dispatchKeyDown msA wSelA "Enter" false).2.1 =
      [Act.triggerClick wSelA.nav.currentMarker] ∧
    (dispatchKeyDown msA wSelA "Enter" false).1 = wSelA ∧
    clickActs (dispatchKeyDown msA
      (stepEvW msA wSelA (Ev.setFocus false)) "Enter" false).2.1 = []) :=
  ⟨⟨by decide, by decide, by decide, by decide⟩,
    C9_select_and_enter msA (some "s") (some "d") true evsEnterA wSelA false rfl
      (by decide) (by decide) (by decide) (by decide)⟩

/-- C10: the keydown closure captures the marker list at
initialization.  After `updateMarkerCount` replaces the stored list,
backward arming still sets the cursor to the CAPTURED list's length,
and the exit/suppression boundary checks still compare against the
captured list's length — while each step's marker selection reads the
CURRENT stored list. -/
theorem C10_stale_closure (cm newMarkers : List Marker) (w w2 : World)
    (sh : Bool)
    (hw2 : w2 = { w with nav := updateMarkerCount w.nav newMarkers }) :
    (w.focused = false →
      (dispatchKeyDown cm w2 "Tab" true).1.nav.currentMarker =
        (cm.length : Int)) ∧
    (w.focused = true →
      ((dispatchKeyDown cm w2 "Tab" sh).1.nav.currentMarker,
        (dispatchKeyDown cm w2 "Tab" sh).2.2) =
        (if (cm.length : Int) ≤
              ((if newMarkers.length = 0 then 0 else w.nav.currentMarker) +
                (if sh then -1 else 1)) ∧ sh = false
         then ((cm.length : Int), false)
         else if ((if newMarkers.length = 0 then 0 else w.nav.currentMarker) +
                (if sh then -1 else 1)) ≤ -1 ∧ sh = true
         then ((-1 : Int), false)
         else ((if newMarkers.length = 0 then 0 else w.nav.currentMarker) +
                (if sh then -1 else 1), true))) ∧
    (w.focused = true → ∀ mc : Marker,
      jsIndex newMarkers
        (w.nav.currentMarker + (if sh then -1 else 1)) = some mc →
      Act.panTo mc.pos ∈ (dispatchKeyDown cm w2 "Tab" sh).2.1 ∧
      Act.setIcon (w.nav.currentMarker + (if sh then -1 else 1))
        w.nav.selectedMarkerIcon ∈ (dispatchKeyDown cm w2 "Tab" sh).2.1) := by
  subst hw2
  refine ⟨?_, ?_, ?_⟩
  · intro hwf
    have hds : (dispatchKeyDown cm
        { w with nav := updateMarkerCount w.nav newMarkers } "Tab" true).1 =
        (tabNavKeydownHandler cm
          { w with nav := updateMarkerCount w.nav newMarkers } "Tab" true).1 := rfl
    rw [hds]
    unfold tabNavKeydownHandler
    rw [if_pos (show _ ∧ _ from ⟨rfl, hwf⟩)]
    rfl
  · intro hf
    exact (tabNav_inside_spec cm
      { w with nav := updateMarkerCount w.nav newMarkers } sh hf).2.2
  · intro hf mc hm
    have hin := jsIndex_some_inRange hm
    have hne : ¬ ({ w with nav := updateMarkerCount w.nav newMarkers }
        : World).nav.markers.length = 0 := by
      show ¬ newMarkers.length = 0
      have := hin.1
      have := hin.2
      omega
    have hm2 : jsIndex ({ w with nav := updateMarkerCount w.nav newMarkers }
          : World).nav.markers
        (({ w with nav := updateMarkerCount w.nav newMarkers }
          : World).nav.currentMarker + (if sh then -1 else 1)) = some mc := hm
    have hacts : (dispatchKeyDown cm
        { w with nav := updateMarkerCount w.nav newMarkers } "Tab" sh).2.1 =
        (iterateMarkers
          ({ w with nav := updateMarkerCount w.nav newMarkers } : World).nav
          ({ w with nav := updateMarkerCount w.nav newMarkers }
            : World).nav.previousMarkerListener sh).2.1 := by
      rw [dispatchKeyDown_acts (by decide)]
      exact tabNav_inside_acts cm _ sh hf
    rw [hacts]
    rcases hdes : jsIndex ({ w with nav := updateMarkerCount w.nav newMarkers }
          : World).nav.markers
        (({ w with nav := updateMarkerCount w.nav newMarkers }
          : World).nav.currentMarker) with - | md
    · rw [iterateMarkers_enter hne hm2 hdes _]
      exact ⟨by simp [updateMarkerCount], by simp [updateMarkerCount]⟩
    · rw [iterateMarkers_step_full hne hm2 hdes _]
      exact ⟨by simp [updateMarkerCount], by simp [updateMarkerCount]⟩

theorem C10_stale_closure_wit :
    (({ wSelA with nav := updateMarkerCount wSelA.nav msB } : World) =
      { wSelA with nav := updateMarkerCount wSelA.nav msB }) ∧
    ((wSelA.focused = false →
      (dispatchKeyDown msA
        { wSelA with nav := updateMarkerCount wSelA.nav msB }
        "Tab" true).1.nav.currentMarker = (msA.length : Int)) ∧
    (wSelA.focused = true →
      ((dispatchKeyDown msA
          { wSelA with nav := updateMarkerCount wSelA.nav msB }
          "Tab" false).1.nav.currentMarker,
        (dispatchKeyDown msA
          { wSelA with nav := updateMarkerCount wSelA.nav msB }
          "Tab" false).2.2) =
        (if (msA.length : Int) ≤
              ((if msB.length = 0 then 0 else wSelA.nav.currentMarker) +
                (if false then -1 else 1)) ∧ false = false
         then ((msA.length : Int), false)
         else if ((if msB.length = 0 then 0 else wSelA.nav.currentMarker) +
                (if false then -1 else 1)) ≤ -1 ∧ false = true
         then ((-1 : Int), false)
         else ((if msB.length = 0 then 0 else wSelA.nav.currentMarker) +
                (if false then -1 else 1), true))) ∧
    (wSelA.focused = true → ∀ mc : Marker,
      jsIndex msB
        (wSelA.nav.currentMarker + (if false then -1 else 1)) = some mc →
      Act.panTo mc.pos ∈ (dispatchKeyDown msA
        { wSelA with nav := updateMarkerCount wSelA.nav msB } "Tab" false).2.1 ∧
      Act.setIcon (wSelA.nav.currentMarker + (if false then -1 else 1))
        wSelA.nav.selectedMarkerIcon ∈ (dispatchKeyDown msA
        { wSelA with nav := updateMarkerCount wSelA.nav msB } "Tab" false).2.1)) :=
  ⟨rfl, C10_stale_closure msA msB wSelA
    { wSelA with nav := updateMarkerCount wSelA.nav msB } false rfl⟩

end MarkerNav
